import Mathlib

/-!
# Verification of the tts-bot voice session scheduler and TTS pipeline

A shallow embedding, in Lean 4, of the core components of the `tts-bot`
repository (Python), together with theorems settling the frozen claims about
its specification.

Conventions of the embedding:
* Python byte strings are `List Nat` (one entry per byte; bytes are `< 256`
  where that matters).
* Python text strings are Lean `String`; the Python `str.strip` / `str.lower`
  operations used by the bot are re-implemented below over the character
  lists, restricted to ASCII whitespace/case (which is all the bot's inputs
  use).
* Monotonic clock readings (`time.monotonic()` / `time.time()`, Python
  floats) are modelled as rationals `ℚ`.
* `async` functions have no concurrency semantics visible to these claims:
  each is a pure state transformer; external effects (HTTP responses,
  platform voice clients, the wall clock) are supplied as explicit
  oracle/environment values.
* Fallible Python code (functions that may `raise`) returns `Except`.
-/

namespace TtsBot

/-! ## Python string helpers (ASCII model of `str.strip`, `str.lower`) -/

/-- ASCII whitespace, as stripped by Python `str.strip()` (restricted to the
ASCII range; the bot's identifiers and settings values are ASCII). -/
def isPySpace (c : Char) : Bool :=
  c = ' ' || c = '\t' || c = '\n' || c = '\r' || c = '\x0b' || c = '\x0c'

/-- Python `s.strip()`: drop leading and trailing whitespace. -/
def pyStrip (s : String) : String :=
  ⟨((s.data.dropWhile isPySpace).reverse.dropWhile isPySpace).reverse⟩

/-- ASCII lower-casing of one character (model of `str.lower` on the ASCII
inputs the bot handles). -/
def pyLowerChar (c : Char) : Char :=
  if 'A' ≤ c ∧ c ≤ 'Z' then Char.ofNat (c.toNat + 32) else c

/-- Python `s.lower()` (ASCII model). -/
def pyLower (s : String) : String := ⟨s.data.map pyLowerChar⟩

/-! ## C1 component: circuit breakers and per-voice cooldowns
(`src/utils/tts_pipeline.py`) -/

/-- `VOICE_FAILURE_THRESHOLD` from `src/utils/config.py`. -/
def VOICE_FAILURE_THRESHOLD : Nat := 3

/-- `VOICE_COOLDOWN_DURATION` from `src/utils/config.py`. -/
def VOICE_COOLDOWN_DURATION : ℚ := 300

/-- `FALLBACK_VOICE` from `src/utils/config.py`. -/
def FALLBACK_VOICE : String := "en_us_001"

/-- `MAX_TTS_CHARS` from `src/utils/config.py`. -/
def MAX_TTS_CHARS : Int := 300

/-- `QUEUE_MAXSIZE` from `src/utils/config.py` (`_env_int("QUEUE_MAXSIZE", 100)`
with the environment variable unset). -/
def QUEUE_MAXSIZE : Nat := 100

/-- The mutable fields of `class CircuitBreaker` in `src/utils/tts_pipeline.py`
(`name` is only used in the exception message and is omitted). -/
structure CircuitBreaker where
  failure_threshold : Nat
  reset_timeout : ℚ
  failures : Nat
  open_until : ℚ
deriving DecidableEq, Repr

/-- Outcome of `CircuitBreaker.execute`: either the wrapped operation's value,
or a raised `TTSAPIError` — `breakerOpen` for the "circuit open" fast-fail,
`opFailed` for an exception re-raised from the operation itself. -/
inductive BreakerOutcome (α : Type) where
  | ok (a : α)
  | breakerOpen
  | opFailed
deriving DecidableEq, Repr

/-- `CircuitBreaker.execute(func)`.  The awaited operation is modelled by its
outcome `op : Except Unit α` (`.error` = the coroutine raised).  `now` is the
`time.monotonic()` reading at entry.  Returns the outcome together with the
updated breaker state. -/
def CircuitBreaker.execute (cb : CircuitBreaker) (now : ℚ) (op : Except Unit α) :
    BreakerOutcome α × CircuitBreaker :=
  -- `if self.open_until and now < self.open_until: raise`
  if cb.open_until ≠ 0 ∧ now < cb.open_until then
    (.breakerOpen, cb)
  else
    match op with
    | .ok a => (.ok a, { cb with failures := 0, open_until := 0 })
    | .error _ =>
        let f := cb.failures + 1
        (.opFailed,
         { cb with
             failures := f
             open_until := if cb.failure_threshold ≤ f then now + cb.reset_timeout
                           else cb.open_until })

/-- The `"tiktok"` entry of `circuit_breakers` (threshold 3, reset 60 s). -/
def tiktokBreakerInit : CircuitBreaker :=
  { failure_threshold := 3, reset_timeout := 60, failures := 0, open_until := 0 }

/-- The `"google"` entry of `circuit_breakers` (threshold 5, reset 30 s). -/
def googleBreakerInit : CircuitBreaker :=
  { failure_threshold := 5, reset_timeout := 30, failures := 0, open_until := 0 }

/-- Folding a sequence of failing executions (at the given clock readings)
through a breaker: the state after `ts.length` consecutive failures. -/
def execFailures (cb : CircuitBreaker) (ts : List ℚ) : CircuitBreaker :=
  ts.foldl (fun cb t => (cb.execute t (.error () : Except Unit Unit)).2) cb

lemma execFailures_spec : ∀ (ts : List ℚ) (cb : CircuitBreaker) (hne : ts ≠ []),
    cb.open_until = 0 →
    cb.failures + ts.length = cb.failure_threshold →
    (execFailures cb ts).failure_threshold = cb.failure_threshold ∧
    (execFailures cb ts).reset_timeout = cb.reset_timeout ∧
    (execFailures cb ts).failures = cb.failure_threshold ∧
    (execFailures cb ts).open_until = ts.getLast hne + cb.reset_timeout := by
  intro ts
  induction ts with
  | nil => intro cb hne; exact absurd rfl hne
  | cons t rest ih =>
    intro cb _ hopen hcount
    have hstep : (cb.execute t (.error () : Except Unit Unit)).2 =
        { cb with
            failures := cb.failures + 1
            open_until := if cb.failure_threshold ≤ cb.failures + 1 then
                            t + cb.reset_timeout else cb.open_until } := by
      simp only [CircuitBreaker.execute, hopen]
      simp
    cases rest with
    | nil =>
      have hth : cb.failure_threshold ≤ cb.failures + 1 := by
        simp at hcount; omega
      simp only [execFailures, List.foldl, hstep, if_pos hth]
      simp at hcount ⊢
      omega
    | cons u us =>
      have hth : ¬ cb.failure_threshold ≤ cb.failures + 1 := by
        simp at hcount; omega
      have hrec := ih { cb with
          failures := cb.failures + 1
          open_until := if cb.failure_threshold ≤ cb.failures + 1 then
                          t + cb.reset_timeout else cb.open_until }
        (by simp) (by simp [if_neg hth, hopen]) (by simp at hcount ⊢; omega)
      simp only [execFailures, List.foldl] at hrec ⊢
      rw [hstep]
      refine ⟨hrec.1, hrec.2.1, hrec.2.2.1, ?_⟩
      rw [hrec.2.2.2]
      simp [List.getLast]

/-- **C4.** After `threshold` consecutive failed executions (clock readings
`ts`, all non-negative), the breaker's `open_until` is the last failure time
plus `reset_timeout`; a call strictly before `open_until` fails fast with the
"circuit open" error and neither runs the operation (the result is the same
for every `op`) nor changes the breaker; a call once `reset_timeout` has
elapsed (`open_until ≤ now`) runs the operation again; and any successful
execution resets `failures` to 0 and `open_until` to 0. -/
theorem breaker_opens_and_heals (th : Nat) (reset : ℚ) (ts : List ℚ)
    (h1 : 1 ≤ th) (h2 : ts.length = th) (h3 : 0 < reset) (h4 : ∀ t ∈ ts, 0 ≤ t) :
    (∀ (now : ℚ) (op : Except Unit Unit),
        now < (execFailures ⟨th, reset, 0, 0⟩ ts).open_until →
        (execFailures ⟨th, reset, 0, 0⟩ ts).execute now op
          = (.breakerOpen, execFailures ⟨th, reset, 0, 0⟩ ts)) ∧
    (∀ (now : ℚ) (op : Except Unit Unit),
        (execFailures ⟨th, reset, 0, 0⟩ ts).open_until ≤ now →
        ((execFailures ⟨th, reset, 0, 0⟩ ts).execute now op).1
          = (match op with | .ok a => .ok a | .error _ => .opFailed)) ∧
    (∀ (cb : CircuitBreaker) (now : ℚ) (a : Unit),
        (cb.execute now (.ok a)).1 = .ok a →
        (cb.execute now (.ok a)).2.failures = 0 ∧
        (cb.execute now (.ok a)).2.open_until = 0) := by
  have hne : ts ≠ [] := by
    intro h; rw [h] at h2; simp at h2; omega
  obtain ⟨hth, hres, hfail, hopen⟩ :=
    execFailures_spec ts ⟨th, reset, 0, 0⟩ hne rfl (by simpa using h2)
  have hlast : 0 ≤ ts.getLast hne := h4 _ (List.getLast_mem hne)
  have hpos : 0 < (execFailures ⟨th, reset, 0, 0⟩ ts).open_until := by
    rw [hopen]; simp only at *; linarith
  refine ⟨?_, ?_, ?_⟩
  · intro now op hnow
    simp only [CircuitBreaker.execute, hpos.ne', ne_eq, not_false_eq_true,
      true_and, hnow, if_pos]
  · intro now op hnow
    have : ¬ ((execFailures ⟨th, reset, 0, 0⟩ ts).open_until ≠ 0 ∧
        now < (execFailures ⟨th, reset, 0, 0⟩ ts).open_until) := by
      push_neg; intro _; linarith
    simp only [CircuitBreaker.execute, if_neg this]
    cases op <;> rfl
  · intro cb now a h
    by_cases hc : cb.open_until ≠ 0 ∧ now < cb.open_until
    · simp [CircuitBreaker.execute, hc] at h
    · simp [CircuitBreaker.execute, hc]

/-- Witness for `breaker_opens_and_heals`: the TikTok breaker parameters
(threshold 3, reset 60 s) with failures at times 0, 1, 2; a call at time 30 is
rejected with the breaker open and the state untouched. -/
theorem breaker_opens_and_heals_witness :
    (execFailures ⟨3, 60, 0, 0⟩ [0, 1, 2]).execute 30 (.error () : Except Unit Unit)
      = (.breakerOpen, execFailures ⟨3, 60, 0, 0⟩ [0, 1, 2]) :=
  (breaker_opens_and_heals 3 60 [0, 1, 2] (by norm_num) (by norm_num) (by norm_num)
    (by norm_num)).1 30 (.error ())
    (by norm_num [execFailures, CircuitBreaker.execute])

/-! ## C6 component: utterance queue (`asyncio.Queue`, `src/utils/queue_utils.py`,
`src/cogs/tts.py` `GuildState`) -/

/-- Model of Python `asyncio.Queue`: a FIFO with a `maxsize` (`0` means
unbounded, as in asyncio). -/
structure AQueue (α : Type) where
  maxsize : Nat
  items : List α
deriving DecidableEq, Repr

/-- `asyncio.Queue.full()`: true iff `maxsize > 0` and `qsize() >= maxsize`. -/
def AQueue.full (q : AQueue α) : Bool :=
  q.maxsize ≠ 0 && q.maxsize ≤ q.items.length

/-- `await queue.put(item)`.  When the queue is full the coroutine suspends
until space is available; in every modelled call site the queue is not full at
the time of the `put` (the per-guild queue is unbounded, and
`enqueue_with_drop` frees a slot first), so `put` is total here. -/
def AQueue.put (q : AQueue α) (a : α) : AQueue α :=
  { q with items := q.items ++ [a] }

/-- `queue.get_nowait()`: the head item and the remaining queue, or `none`
when the queue is empty (`asyncio.QueueEmpty`). -/
def AQueue.getNowait (q : AQueue α) : Option (α × AQueue α) :=
  match q.items with
  | [] => none
  | a :: rest => some (a, { q with items := rest })

/-- The queue a fresh `GuildState` is created with
(`queue: asyncio.Queue = field(default_factory=asyncio.Queue)` in
`src/cogs/tts.py`): the default constructor, i.e. `maxsize = 0`. -/
def guildStateQueue (α : Type) : AQueue α := { maxsize := 0, items := [] }

/-- `enqueue_with_drop(queue, item, policy)` from `src/utils/queue_utils.py`.
Returns `((dropped, accepted), queue')`. -/
def enqueue_with_drop (q : AQueue α) (item : α) (policy : String) :
    (Nat × Bool) × AQueue α :=
  if q.full then
    if policy = "drop_oldest" then
      match q.getNowait with
      | some (_, q') => ((1, true), q'.put item)
      | none => ((0, true), q.put item)
    else ((0, false), q)
  else ((0, true), q.put item)

set_option maxRecDepth 4000

/-- **C5, counterexample.**  The claim says every per-tenant utterance queue
holds at most 100 items in every reachable state.  The per-tenant queue is
created by `GuildState` with `asyncio.Queue()` — unbounded — and the cog
enqueues with a bare `queue.put`, so 101 consecutive enqueues yield 101
queued items. -/
theorem guild_queue_unbounded_counterexample :
    (((List.range 101).foldl (fun q i => q.put i) (guildStateQueue Nat)).items.length
        = 101) ∧
    ¬ (((List.range 101).foldl (fun q i => q.put i) (guildStateQueue Nat)).items.length
        ≤ 100) := by
  constructor <;> decide

/-- **C5, amended.**  The per-tenant queue (`GuildState.queue`) is an
*unbounded* FIFO: it is created with `maxsize = 0`, is never full, and a
sequence of `put`s stores every item in order.  The configured bound
(`QUEUE_MAXSIZE`, default 100) and the drop policy live only in
`enqueue_with_drop`, which is not applied to the per-tenant queue: on a full
bounded queue, `drop_oldest` removes the head, enqueues the new item, keeps
the length, and returns `(dropped=1, accepted=true)`, while any other policy
returns `(0, false)` and leaves the queue unchanged. -/
theorem guild_queue_amended (l : List Nat) (q : AQueue Nat) (item : Nat)
    (hfull : q.full = true) :
    ((guildStateQueue Nat).maxsize = 0 ∧
      (∀ q' : AQueue Nat, q'.maxsize = 0 → q'.full = false) ∧
      (l.foldl (fun q i => q.put i) (guildStateQueue Nat)).items = l ∧
      QUEUE_MAXSIZE = 100) ∧
    (enqueue_with_drop q item "drop_oldest"
        = ((1, true), { q with items := q.items.tail ++ [item] }) ∧
      ((enqueue_with_drop q item "drop_oldest").2.items.length = q.items.length) ∧
      enqueue_with_drop q item "reject" = ((0, false), q)) := by
  have hne : q.items ≠ [] := by
    intro h
    simp [AQueue.full, h] at hfull
  have hdrop : enqueue_with_drop q item "drop_oldest"
      = ((1, true), { q with items := q.items.tail ++ [item] }) := by
    obtain ⟨a, rest, hq⟩ := List.exists_cons_of_ne_nil hne
    simp [enqueue_with_drop, hfull, AQueue.getNowait, hq, AQueue.put]
  refine ⟨⟨rfl, ?_, ?_, rfl⟩, hdrop, ?_, ?_⟩
  · intro q' h
    simp [AQueue.full, h]
  · have key : ∀ (m : List Nat) (acc : AQueue Nat),
        (m.foldl (fun q i => q.put i) acc).items = acc.items ++ m := by
      intro m
      induction m with
      | nil => intro acc; simp
      | cons a as ih =>
        intro acc
        rw [List.foldl_cons, ih]
        simp [AQueue.put]
    simpa [guildStateQueue] using key l (guildStateQueue Nat)
  · rw [hdrop]
    have := List.exists_cons_of_ne_nil hne
    obtain ⟨a, rest, hq⟩ := this
    simp [hq]
  · simp [enqueue_with_drop, hfull]

/-- Witness for `guild_queue_amended`: a bounded queue of capacity 2 holding
`[10, 20]` is full; `drop_oldest` eviction of the head accepts `30`. -/
theorem guild_queue_amended_witness :
    enqueue_with_drop (⟨2, [10, 20]⟩ : AQueue Nat) 30 "drop_oldest"
      = ((1, true), ⟨2, [20, 30]⟩) :=
  (guild_queue_amended [] ⟨2, [10, 20]⟩ 30 (by decide)).2.1

/-! ## C5 component: guild session state machine (`src/cogs/tts.py`) -/

/-- `QueueItem` from `src/cogs/tts.py`. -/
structure QueueItem where
  text : String
  voice_id : String
  volume : Option ℚ := none
deriving DecidableEq, Repr

/-- An opaque `discord.VoiceClient` handle, reduced to the two observations
`ensure_connected` makes of it: `is_connected()` and `channel` (the channel
id, `none` when the client has no channel). -/
structure VoiceClient where
  connected : Bool
  channel : Option Nat
deriving DecidableEq, Repr

/-- `GuildState` from `src/cogs/tts.py`.  The worker task handle and the
`connect_lock` are runtime artifacts with no data content and are not fields
here; `ensure_connected` below is the body that runs under the lock. -/
structure GuildState where
  voice_client : Option VoiceClient := none
  voice_channel_id : Option Nat := none
  last_voice_channel_id : Option Nat := none
  queue : AQueue QueueItem := guildStateQueue QueueItem
  last_speaker_id : Option Nat := none
  last_connect_attempt : ℚ := 0
deriving DecidableEq, Repr

/-- The channel of a live voice client: the test
`vc and vc.is_connected() and vc.channel` yields this channel id, or `none`
when any conjunct is falsy. -/
def liveChannel (ovc : Option VoiceClient) : Option Nat :=
  match ovc with
  | none => none
  | some vc => if vc.connected then vc.channel else none

/-- Outcome of one `await voice_channel.connect(...)` platform call:
success with a fresh client, a `discord.ClientException` whose text contains
"Already connected", any other `ClientException`, or any other exception. -/
inductive ConnectOutcome where
  | ok (vc : VoiceClient)
  | alreadyConnected
  | clientExc
  | exc
deriving DecidableEq, Repr

/-- The platform environment one `ensure_connected` call observes, in the
order the source reads it: `now = time.time()`, the first `guild.voice_client`
read, the first `connect` outcome, the re-reads of `guild.voice_client` in
the "Already connected" recovery path, whether `move_to` succeeds, and the
second `connect` outcome. -/
structure ConnectEnv where
  now : ℚ
  guildVC : Option VoiceClient
  connect1 : ConnectOutcome
  guildVC2 : Option VoiceClient
  moveOk : Bool
  guildVC3 : Option VoiceClient
  connect2 : ConnectOutcome
  guildVC4 : Option VoiceClient
deriving Repr

/-- State update shared by the adopt/move success returns of
`ensure_connected`: store the client and lock to the target channel. -/
def adoptClient (st : GuildState) (vc : Option VoiceClient) (target : Nat) :
    GuildState :=
  { st with
      voice_client := vc
      voice_channel_id := some target
      last_voice_channel_id := some target }

/-- `TTSCog.ensure_connected(guild, voice_channel)` from `src/cogs/tts.py`
(the body under `state.connect_lock`), as a pure transformer of the session
state.  Returns the `bool` result and the new state.  `ensure_worker`, log
statements and the 0.5 s sleep have no effect on the modelled fields. -/
def ensure_connected (st : GuildState) (env : ConnectEnv) (target : Nat) :
    Bool × GuildState :=
  -- Already connected: locked to the current channel.
  match liveChannel st.voice_client with
  | some c => if c = target then (true, st) else (false, st)
  | none =>
  -- Discord may already have a live voice client not tracked in state.
  match liveChannel env.guildVC with
  | some c =>
      if c = target then (true, adoptClient st env.guildVC target)
      else (false, st)
  | none =>
  -- Connect cooldown.
  if st.last_connect_attempt ≠ 0 ∧ env.now - st.last_connect_attempt < 5 then
    (false, st)
  else
    -- Connect and lock.
    let st := { st with
        last_connect_attempt := env.now
        voice_channel_id := some target
        last_voice_channel_id := some target
        last_speaker_id := none }
    match env.connect1 with
    | .ok vc => (true, { st with voice_client := some vc })
    | .alreadyConnected =>
        (match liveChannel env.guildVC2 with
         | some c2 =>
             if c2 ≠ target then
               if env.moveOk then (true, adoptClient st env.guildVC2 target)
               else (false, st)
             else (true, adoptClient st env.guildVC2 target)
         | none =>
             let st := { st with voice_client := none, voice_channel_id := none }
             match liveChannel env.guildVC3 with
             | some c3 =>
                 if c3 = target then (true, adoptClient st env.guildVC3 target)
                 else
                   (match env.connect2 with
                    | .ok vc => (true, { st with voice_client := some vc })
                    | .alreadyConnected =>
                        (match liveChannel env.guildVC4 with
                         | some c4 =>
                             if c4 = target then
                               (true, adoptClient st env.guildVC4 target)
                             else
                               (false, { st with voice_client := none,
                                                 voice_channel_id := none })
                         | none =>
                             (false, { st with voice_client := none,
                                               voice_channel_id := none }))
                    | .clientExc | .exc =>
                        (false, { st with voice_client := none,
                                          voice_channel_id := none }))
             | none =>
                 (match env.connect2 with
                  | .ok vc => (true, { st with voice_client := some vc })
                  | .alreadyConnected =>
                      (match liveChannel env.guildVC4 with
                       | some c4 =>
                           if c4 = target then
                             (true, adoptClient st env.guildVC4 target)
                           else
                             (false, { st with voice_client := none,
                                               voice_channel_id := none })
                       | none =>
                           (false, { st with voice_client := none,
                                             voice_channel_id := none }))
                  | .clientExc | .exc =>
                      (false, { st with voice_client := none,
                                        voice_channel_id := none })))
    | .clientExc | .exc =>
        (false, { st with voice_client := none, voice_channel_id := none })

/-- **C3.**  While the session is attached to channel `c₁` (its tracked voice
client is live on `c₁`), `ensure_connected` towards any `c₂ ≠ c₁` returns the
`Locked` outcome — the early `False` return, before any mutation — and the
session state is returned with every field (voice client, locked channel,
last channel, last speaker, last connect attempt, queue) unchanged. -/
theorem ensure_connected_locked (st : GuildState) (env : ConnectEnv)
    (c1 c2 : Nat) (hlive : liveChannel st.voice_client = some c1)
    (hne : c1 ≠ c2) :
    ensure_connected st env c2 = (false, st) := by
  simp [ensure_connected, hlive, hne]

/-- Witness for `ensure_connected_locked`: a session attached to channel 1,
asked for channel 2. -/
theorem ensure_connected_locked_witness :
    ensure_connected
        { voice_client := some ⟨true, some 1⟩, voice_channel_id := some 1 }
        ⟨0, none, .exc, none, false, none, .exc, none⟩ 2
      = (false,
         { voice_client := some ⟨true, some 1⟩, voice_channel_id := some 1 }) :=
  ensure_connected_locked _ _ 1 2 (by decide) (by decide)

/-! ## C6 component: worker loop and playback (`src/cogs/tts.py`) -/

/-- The fallible awaits inside one `play_tts` call, by their outcomes:
`streamErr` — `get_tts_stream` raised (all provider paths failed);
`playErr` — `voice_client.play` / the FFmpeg source constructor raised;
`producerErr` — the producer task completed with an exception
(this one is awaited inside a `try/except` and only logged). -/
structure PlayEnv where
  streamErr : Bool
  playErr : Bool
  producerErr : Bool
deriving DecidableEq, Repr

/-- `TTSCog.play_tts` from `src/cogs/tts.py`, reduced to its raise/return
behaviour: empty (stripped) text is a no-op; a `get_tts_stream` or `play`
failure propagates to the caller; a producer-task failure is caught by the
`try/except` around `await producer_task` and only logged. -/
def play_tts (text : String) (env : PlayEnv) : Except Unit Unit :=
  if pyStrip text = "" then .ok ()
  else if env.streamErr then .error ()
  else if env.playErr then .error ()
  else .ok ()  -- producerErr is logged, not raised

/-- One entry of the per-guild queue as the worker sees it: the `None`
sentinel, or an item together with the connectedness of the session's voice
client at that round and the playback outcomes. -/
inductive WorkerEntry where
  | sentinel
  | utter (connected : Bool) (text : String) (env : PlayEnv)
deriving DecidableEq, Repr

/-- How the worker loop of `TTSCog.ensure_worker` ended. -/
inductive WorkerExit where
  | sentinelExit  -- dequeued `None` and returned
  | raised        -- an exception escaped the loop: the task ends in error
  | drained       -- the modelled (finite) queue trace ran out; in the real
                  -- system the worker blocks on `queue.get()` here
deriving DecidableEq, Repr

/-- The `worker_loop` of `TTSCog.ensure_worker`, run over a finite trace of
queue entries.  Returns the number of `task_done` acknowledgements and the
way the loop ended.  The loop body is `try: ... finally: task_done()` with
*no* `except` clause: a raising `play_tts` still acknowledges the item but
then propagates, ending the task. -/
def workerRun : List WorkerEntry → Nat × WorkerExit
  | [] => (0, .drained)
  | .sentinel :: _ => (0, .sentinelExit)
  | .utter connected text env :: rest =>
      if connected = false then
        -- `continue` (the `finally` still runs `task_done`)
        let r := workerRun rest
        (r.1 + 1, r.2)
      else
        match play_tts text env with
        | .ok _ =>
            let r := workerRun rest
            (r.1 + 1, r.2)
        | .error _ => (1, .raised)

/-- **C2, counterexample.**  The claim says a playback error never terminates
the worker task.  A queue trace with one connected utterance whose
`get_tts_stream` call raises, followed by a second healthy utterance, ends
the worker with a propagated exception after the first item; the second item
is never processed (only one `task_done`). -/
theorem worker_raises_counterexample :
    workerRun
        [.utter true "hi" ⟨true, false, false⟩,
         .utter true "there" ⟨false, false, false⟩]
      = (1, .raised) := by
  decide

/-- **C2, amended.**  The worker's loop body is `try/finally` without
`except`: (a) a producer-task failure alone is swallowed inside `play_tts`
and the loop continues exactly as for a success; (b) but when the playback
step itself raises (stream acquisition or `play`, on a connected session with
non-empty text), the item is still acknowledged (`task_done` in the
`finally`) and then the worker task terminates with the error, processing no
further items. -/
theorem worker_amended :
    (∀ (connected : Bool) (text : String) (producerErr : Bool)
        (rest : List WorkerEntry),
        workerRun (.utter connected text ⟨false, false, producerErr⟩ :: rest)
          = ((workerRun rest).1 + 1, (workerRun rest).2)) ∧
    (∀ (text : String) (env : PlayEnv) (rest : List WorkerEntry),
        play_tts text env = .error () →
        workerRun (.utter true text env :: rest) = (1, .raised)) := by
  constructor
  · intro connected text producerErr rest
    have hok : play_tts text ⟨false, false, producerErr⟩ = .ok () := by
      simp [play_tts]
    cases connected
    · simp [workerRun]
    · simp [workerRun, hok]
  · intro text env rest herr
    simp [workerRun, herr]

/-- Witness for `worker_amended`: a connected utterance whose stream
acquisition fails terminates the worker after acknowledging the item. -/
theorem worker_amended_witness :
    workerRun [.utter true "hi" ⟨true, false, false⟩] = (1, .raised) :=
  worker_amended.2 "hi" ⟨true, false, false⟩ [] (by rfl)

/-! ## C3 component: settings schema (`src/utils/settings_schema.py`) -/

/-- The dynamically-typed values the settings layer handles (`Any` in the
source): strings, ints, bools, lists, and `None`. -/
inductive PyVal where
  | str (s : String)
  | int (n : Int)
  | bool (b : Bool)
  | list (l : List PyVal)
  | none
deriving Repr

/-- Python truthiness (`bool(x)`) on the modelled values. -/
def PyVal.isTruthy : PyVal → Bool
  | .str s => s != ""
  | .int n => n != 0
  | .bool b => b
  | .list l => !l.isEmpty
  | .none => false

/-- Python `str(x)` on the modelled values.  The repr of a nested list is
abbreviated (the settings code only ever stringifies scalars; a list input
would produce a bracketed repr that never equals a voice id either way). -/
def pyStr : PyVal → String
  | .str s => s
  | .int n => toString n
  | .bool b => if b then "True" else "False"
  | .list _ => "[...]"
  | .none => "None"

/-- Digits of a decimal literal, or `none` if the characters are not a
non-empty run of ASCII digits. -/
def digitsToNat (l : List Char) : Option Nat :=
  if l ≠ [] && l.all (fun c => '0' ≤ c && c ≤ '9') then
    some (l.foldl (fun a c => a * 10 + (c.toNat - 48)) 0)
  else Option.none

/-- Python `int(s)` on a string: strip whitespace, optional sign, decimal
digits; anything else raises `ValueError` (modelled as `none`).  (CPython
also accepts `_` digit separators; the bot never feeds those.) -/
def parsePyInt (s : String) : Option Int :=
  match (pyStrip s).data with
  | '+' :: rest => (digitsToNat rest).map Int.ofNat
  | '-' :: rest => (digitsToNat rest).map (fun n => -(n : Int))
  | t => (digitsToNat t).map Int.ofNat

/-- Python `int(x)`: ints pass through, bools become 0/1, strings are parsed,
`None`/lists raise `TypeError` (modelled as `none`). -/
def pyInt : PyVal → Option Int
  | .int n => some n
  | .bool b => some (if b then 1 else 0)
  | .str s => parsePyInt s
  | .list _ => Option.none
  | .none => Option.none

/-- Leading-whitespace skip over characters. -/
def skipWsC (l : List Char) : List Char := l.dropWhile isPySpace

/-- Parse one JSON string literal (no escape handling; the persisted voice
ids and channel ids contain neither quotes nor backslashes). -/
def parseJStr : List Char → Option (String × List Char)
  | '"' :: rest =>
      let content := rest.takeWhile (fun c => c ≠ '"')
      match rest.dropWhile (fun c => c ≠ '"') with
      | '"' :: rem => some (⟨content⟩, rem)
      | _ => Option.none
  | _ => Option.none

/-- Items after the first in a JSON array of strings (fuel-indexed loop; the
fuel starts at the remaining length and every iteration consumes at least one
character, so it never runs out on a well-formed input). -/
def parseJItems : Nat → List Char → List PyVal → Option (List PyVal)
  | 0, _, _ => Option.none
  | n + 1, l, acc =>
      match skipWsC l with
      | ']' :: rem => if skipWsC rem = [] then some acc.reverse else Option.none
      | ',' :: rem =>
          match parseJStr (skipWsC rem) with
          | some (s, rem') => parseJItems n rem' (PyVal.str s :: acc)
          | Option.none => Option.none
      | _ => Option.none

/-- Model of `json.loads` on the payloads the settings layer feeds it: JSON
arrays of plain strings, and the literal `null`.  Any other payload is
treated as a parse failure (`json.JSONDecodeError`); the source rejects every
non-list parse result right after the call, so the distinction is not
observable to the validator's callers. -/
def jsonLoads (s : String) : Option PyVal :=
  let t := skipWsC s.data
  if t = ['n', 'u', 'l', 'l'] then some PyVal.none
  else
    match t with
    | '[' :: rest =>
        (match skipWsC rest with
         | ']' :: rem => if skipWsC rem = [] then some (.list []) else Option.none
         | inner =>
             match parseJStr inner with
             | some (s1, rem) => (parseJItems rem.length rem [PyVal.str s1]).map .list
             | Option.none => Option.none)
    | _ => Option.none

/-- `ALL_VOICES` from `src/utils/config.py`: `TIKTOK_VOICES` followed by
`GOOGLE_VOICES`, as `(voice_id, display_name)` pairs. -/
def ALL_VOICES : List (String × String) :=
  [("en_us_ghostface", "Ghost Face"), ("en_us_c3po", "C3PO"),
   ("en_us_stitch", "Stitch"), ("en_us_stormtrooper", "Stormtrooper"),
   ("en_us_rocket", "Rocket"), ("en_female_madam_leota", "Madame Leota"),
   ("en_male_ghosthost", "Ghost Host"), ("en_male_pirate", "Pirate"),
   ("en_us_001", "English US (Default)"), ("en_us_002", "Jessie"),
   ("en_us_006", "Joey"), ("en_us_007", "Professor"),
   ("en_us_009", "Scientist"), ("en_us_010", "Confidence"),
   ("en_male_jomboy", "Game On"), ("en_female_samc", "Empathetic"),
   ("en_male_cody", "Serious"), ("en_female_makeup", "Beauty Guru"),
   ("en_female_richgirl", "Bestie"), ("en_male_grinch", "Trickster"),
   ("en_male_narration", "Story Teller"), ("en_male_deadpool", "Mr. GoodGuy"),
   ("en_male_jarvis", "Alfred"), ("en_male_ashmagic", "ashmagic"),
   ("en_male_olantekkers", "olantekkers"), ("en_male_ukneighbor", "Lord Cringe"),
   ("en_male_ukbutler", "Mr. Meticulous"), ("en_female_shenna", "Debutante"),
   ("en_female_pansino", "Varsity"), ("en_male_trevor", "Marty"),
   ("en_female_betty", "Bae"), ("en_male_cupid", "Cupid"),
   ("en_female_grandma", "Granny"), ("en_male_wizard", "Magician"),
   ("en_uk_001", "Narrator"), ("en_uk_003", "Male English UK"),
   ("en_au_001", "Metro"), ("en_au_002", "Smooth"), ("es_mx_002", "Warm"),
   ("google_translate", "Normal voice")]

/-- `ALL_VOICE_IDS` from `src/utils/config.py`
(`[voice_id for voice_id, _name in ALL_VOICES]`). -/
def ALL_VOICE_IDS : List String := ALL_VOICES.map Prod.fst

/-- `SettingsValidationError` from `src/utils/settings_schema.py`, carrying
its message. -/
structure SettingsValidationError where
  msg : String
deriving DecidableEq, Repr

/-- The validated settings record (`cleaned` as returned by
`validate_settings`), with the Python value types it is guaranteed to hold. -/
structure CleanSettings where
  max_tts_chars : Int
  fallback_voice : String
  default_voice_id : String
  auto_read_messages : Bool
  leave_when_alone : Bool
  greet_on_join : Bool
  farewell_on_leave : Bool
  restrict_voices : Bool
  allowed_voice_ids : List String
  allowlist_text_channel_ids : List Int
deriving DecidableEq, Repr

/-- The input mapping of `validate_settings`, merged over `DEFAULT_SETTINGS`
(`merged = dict(DEFAULT_SETTINGS); merged.update(data)`): a field is `none`
when `data` does not carry the key, in which case the `DEFAULT_SETTINGS`
entry applies.  Extra unknown keys in `data` are carried but never read by
the validator, so they are not modelled. -/
structure SettingsInput where
  max_tts_chars : Option PyVal := Option.none
  fallback_voice : Option PyVal := Option.none
  default_voice_id : Option PyVal := Option.none
  auto_read_messages : Option PyVal := Option.none
  leave_when_alone : Option PyVal := Option.none
  greet_on_join : Option PyVal := Option.none
  farewell_on_leave : Option PyVal := Option.none
  restrict_voices : Option PyVal := Option.none
  allowed_voice_ids : Option PyVal := Option.none
  allowlist_text_channel_ids : Option PyVal := Option.none

/-- The truthy-string test used for the coerced boolean fields:
`value.strip().lower() in {"1", "true", "yes", "y", "on"}`. -/
def pyTruthyStr (s : String) : Bool :=
  ["1", "true", "yes", "y", "on"].contains (pyLower (pyStrip s))

/-- The coercion applied to `greet_on_join`, `farewell_on_leave` and
`restrict_voices`: strings go through the truthy-string set, everything else
through `bool(...)`. -/
def cleanFlag : PyVal → Bool
  | .str s => pyTruthyStr s
  | v => v.isTruthy

/-- The `allowed_voice_ids` cleaning loop: `str(item or "").strip()`, skip
empties and duplicates, fail past 500 entries. -/
def cleanAllowed : List PyVal → List String →
    Except SettingsValidationError (List String)
  | [], acc => .ok acc
  | item :: rest, acc =>
      let voice := pyStrip (pyStr (if item.isTruthy then item else .str ""))
      if voice = "" || acc.contains voice then cleanAllowed rest acc
      else
        let acc' := acc ++ [voice]
        if 500 < acc'.length then
          .error ⟨"allowed_voice_ids is too large (max 500)"⟩
        else cleanAllowed rest acc'

/-- The `allowlist_text_channel_ids` cleaning loop: `int(item)` with
failures skipped, positives only, no duplicates, fail past 200 entries. -/
def cleanChannelIds : List PyVal → List Int →
    Except SettingsValidationError (List Int)
  | [], acc => .ok acc
  | item :: rest, acc =>
      match pyInt item with
      | Option.none => cleanChannelIds rest acc
      | some cid =>
          if cid ≤ 0 || acc.contains cid then cleanChannelIds rest acc
          else
            let acc' := acc ++ [cid]
            if 200 < acc'.length then
              .error ⟨"allowlist_text_channel_ids is too large (max 200)"⟩
            else cleanChannelIds rest acc'

/-- The string-form / `None` / list normalization applied to both list
fields before their cleaning loops. -/
def normListField (v : PyVal) (errJson errList : String) :
    Except SettingsValidationError (List PyVal) := do
  let v ← match v with
    | .str s =>
        match jsonLoads s with
        | some v' => Except.ok v'
        | Option.none => Except.error ⟨errJson⟩
    | v => Except.ok v
  match v with
  | .none => Except.ok []
  | .list l => Except.ok l
  | _ => Except.error ⟨errList⟩

/-- `validate_settings(data)` from `src/utils/settings_schema.py`.  The
`DEFAULT_SETTINGS` values appear as the `getD` defaults of each field.
(The source reads `merged.get("default_voice_id", fallback_voice)`, but
`merged` always carries the `DEFAULT_SETTINGS` entry for the key, so the
`fallback_voice` second argument is dead; the default used is
`DEFAULT_SETTINGS["default_voice_id"] = FALLBACK_VOICE`.) -/
def validate_settings (data : SettingsInput) :
    Except SettingsValidationError CleanSettings :=
  match pyInt (data.max_tts_chars.getD (.int 300)) with
  | Option.none => .error ⟨"max_tts_chars must be an integer"⟩
  | some max_tts_chars =>
  if max_tts_chars < 1 ∨ 2000 < max_tts_chars then
    .error ⟨"max_tts_chars must be between 1 and 2000"⟩
  else
  let fallback_voice := pyStrip (pyStr (data.fallback_voice.getD (.str FALLBACK_VOICE)))
  if fallback_voice = "" then .error ⟨"fallback_voice must be a non-empty string"⟩
  else
  let default_voice_id :=
    pyStrip (pyStr (data.default_voice_id.getD (.str FALLBACK_VOICE)))
  if default_voice_id = "" then .error ⟨"default_voice_id must be a non-empty string"⟩
  else
  let auto_read_messages := (data.auto_read_messages.getD (.bool true)).isTruthy
  let leave_when_alone := (data.leave_when_alone.getD (.bool true)).isTruthy
  let greet_on_join := cleanFlag (data.greet_on_join.getD (.bool false))
  let farewell_on_leave := cleanFlag (data.farewell_on_leave.getD (.bool false))
  let restrict_voices := cleanFlag (data.restrict_voices.getD (.bool false))
  match normListField (data.allowed_voice_ids.getD (.list (ALL_VOICE_IDS.map .str)))
      "allowed_voice_ids must be a JSON list"
      "allowed_voice_ids must be a list of strings" with
  | .error e => .error e
  | .ok allowedItems =>
  match cleanAllowed allowedItems [] with
  | .error e => .error e
  | .ok cleaned_allowed =>
  match normListField (data.allowlist_text_channel_ids.getD (.list []))
      "allowlist_text_channel_ids must be a JSON list"
      "allowlist_text_channel_ids must be a list of integers" with
  | .error e => .error e
  | .ok allowlistItems =>
  match cleanChannelIds allowlistItems [] with
  | .error e => .error e
  | .ok cleaned_allowlist =>
  let cleaned : CleanSettings := {
    max_tts_chars := max_tts_chars
    fallback_voice := fallback_voice
    default_voice_id := default_voice_id
    auto_read_messages := auto_read_messages
    leave_when_alone := leave_when_alone
    greet_on_join := greet_on_join
    farewell_on_leave := farewell_on_leave
    restrict_voices := restrict_voices
    allowed_voice_ids := cleaned_allowed
    allowlist_text_channel_ids := cleaned_allowlist }
  if restrict_voices then
    if cleaned_allowed = [] then
      .error ⟨"Pick at least one allowed voice (allowed_voice_ids)"⟩
    else if ¬ cleaned_allowed.contains fallback_voice then
      .error ⟨"fallback_voice must be included in allowed_voice_ids when restrict_voices is enabled"⟩
    else if ¬ cleaned_allowed.contains default_voice_id then
      .error ⟨"default_voice_id must be included in allowed_voice_ids when restrict_voices is enabled"⟩
    else .ok cleaned
  else .ok cleaned

/-- The record `validate_settings` produces from `DEFAULT_SETTINGS` itself
(no overrides): the store's `_defaults`. -/
def defaultsClean : CleanSettings :=
  { max_tts_chars := 300
    fallback_voice := FALLBACK_VOICE
    default_voice_id := FALLBACK_VOICE
    auto_read_messages := true
    leave_when_alone := true
    greet_on_join := false
    farewell_on_leave := false
    restrict_voices := false
    allowed_voice_ids := ALL_VOICE_IDS
    allowlist_text_channel_ids := [] }

lemma validate_settings_defaults : validate_settings {} = .ok defaultsClean := by
  rfl

/-- **C6.**  Whenever `validate_settings` returns a record with
`restrict_voices = true`, the cleaned `allowed_voice_ids` list is non-empty
and contains both the cleaned `fallback_voice` and the cleaned
`default_voice_id`; any input violating this raises
`SettingsValidationError` instead. -/
theorem validate_restrict_invariant (data : SettingsInput) (c : CleanSettings)
    (hok : validate_settings data = .ok c) (hr : c.restrict_voices = true) :
    c.allowed_voice_ids ≠ [] ∧
    c.allowed_voice_ids.contains c.fallback_voice = true ∧
    c.allowed_voice_ids.contains c.default_voice_id = true := by
  unfold validate_settings at hok
  repeat'
    first
    | exact Except.noConfusion hok
    | split at hok
    | simp only [] at hok
  all_goals (injection hok with hok; subst hok; simp_all)

/-- Witness for `validate_restrict_invariant`: turning on `restrict_voices`
over the default allow-list validates and satisfies the invariant. -/
theorem validate_restrict_invariant_witness :
    ({ defaultsClean with restrict_voices := true } : CleanSettings).allowed_voice_ids
        ≠ [] ∧
      ({ defaultsClean with restrict_voices := true } : CleanSettings).allowed_voice_ids.contains
          ({ defaultsClean with restrict_voices := true } : CleanSettings).fallback_voice
        = true ∧
      ({ defaultsClean with restrict_voices := true } : CleanSettings).allowed_voice_ids.contains
          ({ defaultsClean with restrict_voices := true } : CleanSettings).default_voice_id
        = true :=
  validate_restrict_invariant { restrict_voices := some (.bool true) }
    { defaultsClean with restrict_voices := true } (by rfl) (by rfl)

/-- **C8, counterexample.**  The claim says every boolean field of the
schema coerces strings through the truthy-string set, so `"0"` should yield
`false`.  But `auto_read_messages` (like `leave_when_alone`) is cleaned with
plain `bool(...)`, and `bool("0")` is `True` in Python: the validator returns
`auto_read_messages = true` for the non-truthy string `"0"`. -/
theorem bool_coercion_counterexample :
    ((validate_settings { auto_read_messages := some (.str "0") }).toOption.map
        (·.auto_read_messages) = some true) ∧
      pyTruthyStr "0" = false := by
  exact ⟨rfl, rfl⟩

/-- **C8, amended.**  Only `greet_on_join`, `farewell_on_leave` and
`restrict_voices` accept boolean-looking strings via the truthy-string set
(case-insensitive, after trimming); `auto_read_messages` and
`leave_when_alone` coerce strings by Python truthiness instead: any
non-empty string (including `"false"`, `"no"`, `"0"`) yields `true`, and
only the empty string yields `false`. -/
theorem bool_coercion_amended (s : String) :
    ((validate_settings { greet_on_join := some (.str s) }).toOption.map
        (·.greet_on_join) = some (pyTruthyStr s)) ∧
    ((validate_settings { farewell_on_leave := some (.str s) }).toOption.map
        (·.farewell_on_leave) = some (pyTruthyStr s)) ∧
    ((validate_settings { restrict_voices := some (.str s) }).toOption.map
        (·.restrict_voices) = some (pyTruthyStr s)) ∧
    ((validate_settings { auto_read_messages := some (.str s) }).toOption.map
        (·.auto_read_messages) = some (s != "")) ∧
    ((validate_settings { leave_when_alone := some (.str s) }).toOption.map
        (·.leave_when_alone) = some (s != "")) := by
  refine ⟨rfl, rfl, ?_, rfl, rfl⟩
  have h1 : validate_settings { restrict_voices := some (.str s) }
      = validate_settings { restrict_voices := some (.bool (pyTruthyStr s)) } := rfl
  rw [h1]
  cases hb : pyTruthyStr s
  · rfl
  · rfl

/-! ## C7 component: effective-voice resolution and default-voice migration
(`src/cogs/tts.py`).  The `settings` dicts these methods receive come from the
validated settings store (or the built-in default dict, which has the same
shape), so they are modelled as `CleanSettings` records. -/

/-- The `str(x or FALLBACK_VOICE).strip() or FALLBACK_VOICE` chain used for
both `default_voice_id` and `fallback_voice`. -/
def orFallback (v : String) : String :=
  let v1 := if v = "" then FALLBACK_VOICE else v
  let v2 := pyStrip v1
  if v2 = "" then FALLBACK_VOICE else v2

/-- `TTSCog._bot_default_voice`. -/
def bot_default_voice (s : CleanSettings) : String := orFallback s.default_voice_id

/-- `TTSCog._user_default_voice`: the fallback voice when it differs from the
bot default, else the first catalog voice that differs, else the default. -/
def user_default_voice (s : CleanSettings) : String :=
  let default_voice := bot_default_voice s
  let fallback_voice := orFallback s.fallback_voice
  if fallback_voice ≠ "" ∧ fallback_voice ≠ default_voice then fallback_voice
  else
    match ALL_VOICES.find? (fun p => p.1 != default_voice) with
    | some p => p.1
    | Option.none => default_voice

/-- `TTSCog._allowed_voice_ids`: `None` when `restrict_voices` is off,
otherwise the set of stripped non-empty entries.  (The source builds a Python
`set`; it is modelled as the list in stored order — membership agrees, and the
one `for vid in allowed` loop below reads it in unspecified set order in
CPython, so any fixed order is a faithful determinization.) -/
def allowed_voice_ids_cog (s : CleanSettings) : Option (List String) :=
  if s.restrict_voices then
    some ((s.allowed_voice_ids.map pyStrip).filter (fun v => v != ""))
  else Option.none

/-- `TTSCog._effective_voice_id(settings, requested_voice_id, allow_default)`
from `src/cogs/tts.py`.  The Python truthiness test
`if requested_voice_id:` is false for both `None` and `""`, so the optional
argument is read through `getD ""`. -/
def effective_voice_id (s : CleanSettings) (requested : Option String)
    (allow_default : Bool) : String :=
  let default_voice := bot_default_voice s
  let fallback_voice := orFallback s.fallback_voice
  let rq := requested.getD ""
  let voice_id :=
    if rq ≠ "" then pyStrip rq
    else if allow_default then default_voice else user_default_voice s
  let voice_id :=
    if ¬ allow_default ∧ voice_id = default_voice then user_default_voice s
    else voice_id
  match allowed_voice_ids_cog s with
  | Option.none => voice_id
  | some allowed =>
      if allowed.contains voice_id then voice_id
      else if allow_default then
        if allowed.contains default_voice then default_voice
        else if allowed.contains fallback_voice then fallback_voice
        else voice_id
      else
        let ud := user_default_voice s
        if allowed.contains ud then ud
        else
          match allowed.find? (fun vid => vid != default_voice) with
          | some vid => vid
          | Option.none =>
              if allowed.contains default_voice then default_voice else voice_id

lemma orFallback_ne_empty (v : String) : orFallback v ≠ "" := by
  unfold orFallback
  dsimp only
  split <;> split <;> first | decide | assumption

lemma bot_default_voice_ne_empty (s : CleanSettings) : bot_default_voice s ≠ "" :=
  orFallback_ne_empty _

lemma all_voices_ids_ne_empty : ∀ p ∈ ALL_VOICES, p.1 ≠ "" := by decide

lemma user_default_voice_ne_empty (s : CleanSettings) :
    user_default_voice s ≠ "" := by
  unfold user_default_voice
  dsimp only
  split
  · next h => exact h.1
  · split
    · next p hp =>
        exact all_voices_ids_ne_empty p (List.mem_of_find?_eq_some hp)
    · exact bot_default_voice_ne_empty s

lemma user_default_voice_ne_bot_default (s : CleanSettings) :
    user_default_voice s ≠ bot_default_voice s := by
  unfold user_default_voice
  dsimp only
  split
  · next h => exact h.2
  · split
    · next p hp =>
        have := List.find?_some hp
        simpa using this
    · next hnone =>
        exfalso
        have h1 : (("en_us_ghostface", "Ghost Face") : String × String) ∈ ALL_VOICES := by
          decide
        have h2 : (("en_us_c3po", "C3PO") : String × String) ∈ ALL_VOICES := by
          decide
        have e1 := List.find?_eq_none.mp hnone _ h1
        have e2 := List.find?_eq_none.mp hnone _ h2
        simp at e1 e2
        rw [← e2] at e1
        exact absurd e1 (by decide)

lemma allowed_voice_ids_cog_ne_empty (s : CleanSettings) (l : List String)
    (hl : allowed_voice_ids_cog s = some l) : ∀ v ∈ l, v ≠ "" := by
  unfold allowed_voice_ids_cog at hl
  split at hl
  · intro v hv
    injection hl with hl
    subst hl
    have := List.of_mem_filter hv
    simpa using this
  · exact absurd hl (by simp)

lemma resolve_allowed_ne_empty (s : CleanSettings) (ad : Bool) (w : String)
    (hw : w ≠ "") :
    (match allowed_voice_ids_cog s with
      | Option.none => w
      | some allowed =>
          if allowed.contains w then w
          else if ad then
            if allowed.contains (bot_default_voice s) then bot_default_voice s
            else if allowed.contains (orFallback s.fallback_voice) then
              orFallback s.fallback_voice
            else w
          else
            if allowed.contains (user_default_voice s) then user_default_voice s
            else
              match allowed.find? (fun vid => vid != bot_default_voice s) with
              | some vid => vid
              | Option.none =>
                  if allowed.contains (bot_default_voice s) then bot_default_voice s
                  else w) ≠ "" := by
  rcases hal : allowed_voice_ids_cog s with _ | allowed
  · dsimp only
    exact hw
  · dsimp only
    have hmem := allowed_voice_ids_cog_ne_empty s allowed hal
    split
    · next h => exact hmem _ (List.mem_of_elem_eq_true h)
    · split
      · split
        · exact bot_default_voice_ne_empty s
        · split
          · exact orFallback_ne_empty _
          · exact hw
      · split
        · exact user_default_voice_ne_empty s
        · split
          · next vid hfind => exact hmem _ (List.mem_of_find?_eq_some hfind)
          · split
            · exact bot_default_voice_ne_empty s
            · exact hw

/-- **C9.**  The effective-voice resolver is total and never returns the
empty string, for every settings record, every requested voice id (absent,
empty, or any string that is non-blank after stripping — every catalog id
qualifies) and every `allow_default`. -/
theorem effective_voice_total (s : CleanSettings) (requested : Option String)
    (allow_default : Bool)
    (hreq : ∀ r, requested = some r → r = "" ∨ pyStrip r ≠ "") :
    effective_voice_id s requested allow_default ≠ "" := by
  have hV : (if requested.getD "" ≠ "" then pyStrip (requested.getD "")
      else if allow_default then bot_default_voice s else user_default_voice s)
        ≠ "" := by
    split
    · next h =>
        rcases requested with _ | r
        · simp at h
        · rcases hreq r rfl with h' | h'
          · simp [h'] at h
          · simpa using h'
    · split
      · exact bot_default_voice_ne_empty s
      · exact user_default_voice_ne_empty s
  unfold effective_voice_id
  dsimp only
  generalize (if requested.getD "" ≠ "" then pyStrip (requested.getD "")
      else if allow_default = true then bot_default_voice s
      else user_default_voice s) = v0 at hV ⊢
  exact resolve_allowed_ne_empty s allow_default _
    (by
      split
      · exact user_default_voice_ne_empty s
      · exact hV)

/-- Witness for `effective_voice_total`: default settings, no requested
voice, user path. -/
theorem effective_voice_total_witness :
    effective_voice_id defaultsClean Option.none false ≠ "" :=
  effective_voice_total defaultsClean Option.none false
    (by intro r h; exact absurd h (by simp))

/-- The per-user voice rewrite one `migrate_voice(voice_id)` call performs
(inside `TTSCog._maybe_migrate_default_voice`): every record holding
`voice_id` is set to `replacement`.  The same `WHERE voice_id = ?` update is
issued to the database (`db.replace_user_voice`) and applied to the
`user_voice_cache`; the user records are modelled once as an association
list `user_id ↦ voice_id?`. -/
def migrate_voice (records : List (Nat × Option String)) (voice_id repl : String) :
    List (Nat × Option String) :=
  records.map (fun p => if p.2 = some voice_id then (p.1, some repl) else p)

/-- `TTSCog._maybe_migrate_default_voice(guild_id, settings)` from
`src/cogs/tts.py`, as a function of the previously recorded default
(`self._default_voice_by_guild.get(guild_id)`), the current settings and the
user records.  Returns the rewritten records (the method also stores
`new_default` back into `_default_voice_by_guild`, which is the `oldDefault`
input of the next call).  Note the source migrates holders of *both* the old
and the new default (`migrate_voice(old_default)` then
`migrate_voice(new_default)`); the `elif old_default is None` arm is
unreachable because `None != new_default` is always true. -/
def maybe_migrate_default_voice (oldDefault : Option String) (s : CleanSettings)
    (records : List (Nat × Option String)) : List (Nat × Option String) :=
  let new_default := bot_default_voice s
  let replacement := user_default_voice s
  -- `migrate_voice` begins with `if not voice_id: return`
  let mig := fun (rs : List (Nat × Option String)) (v : String) =>
    if v = "" then rs else migrate_voice rs v replacement
  match oldDefault with
  | some old => if old ≠ new_default then mig (mig records old) new_default
                else records
  | Option.none => mig records new_default

/-- **C7, counterexample.**  The claim says only records holding the old
default `D_old` are rewritten.  With the default changing from `en_us_006`
to `en_us_002`, a user holding `en_us_002` (≠ `D_old`) is rewritten to the
user default `en_us_001` as well, because the source also migrates holders
of the *new* default (the bot voice is reserved). -/
theorem migrate_default_voice_counterexample :
    maybe_migrate_default_voice (some "en_us_006")
        { defaultsClean with default_voice_id := "en_us_002" }
        [(1, some "en_us_002")]
      = [(1, some "en_us_001")] ∧
    ("en_us_002" : String) ≠ "en_us_006" ∧
    (some "en_us_001" : Option String) ≠ some "en_us_002" := by
  refine ⟨rfl, by decide, by decide⟩

/-- **C7, amended.**  When the recorded default `old` differs from the new
default, every user record holding *either* `old` *or* the new default is
rewritten to the user-default voice (`fallback_voice` if distinct from the
new default, else the first catalog voice that differs); records holding
neither are unchanged. -/
theorem migrate_default_voice_amended (old : String) (s : CleanSettings)
    (records : List (Nat × Option String))
    (hold : old ≠ "") (hne : old ≠ bot_default_voice s) :
    maybe_migrate_default_voice (some old) s records
      = records.map (fun p =>
          if p.2 = some old ∨ p.2 = some (bot_default_voice s) then
            (p.1, some (user_default_voice s))
          else p) := by
  have hrepl := user_default_voice_ne_bot_default s
  have hnd := bot_default_voice_ne_empty s
  unfold maybe_migrate_default_voice
  dsimp only
  rw [if_pos hne, if_neg hold, if_neg hnd]
  unfold migrate_voice
  rw [List.map_map]
  refine List.map_congr_left ?_
  intro p _
  by_cases h1 : p.2 = some old
  · simp only [Function.comp_apply, h1, if_pos rfl]
    have : ¬ (some (user_default_voice s) = some (bot_default_voice s)) := by
      simpa using hrepl
    simp [this, h1]
  · have hno : bot_default_voice s ≠ old := Ne.symm hne
    by_cases h2 : p.2 = some (bot_default_voice s)
    · simp [h1, h2, hno]
    · simp [h1, h2]

/-- Witness for `migrate_default_voice_amended`: default changes from
`en_us_006` to `en_us_002`; the holder of the old default and the holder of
the new default both move to `en_us_001`, the third user keeps `en_uk_001`. -/
theorem migrate_default_voice_amended_witness :
    maybe_migrate_default_voice (some "en_us_006")
        { defaultsClean with default_voice_id := "en_us_002" }
        [(1, some "en_us_006"), (2, some "en_us_002"), (3, some "en_uk_001")]
      = [(1, some "en_us_006"), (2, some "en_us_002"),
         (3, some "en_uk_001")].map (fun p =>
          if p.2 = some "en_us_006" ∨
              p.2 = some (bot_default_voice
                { defaultsClean with default_voice_id := "en_us_002" }) then
            (p.1, some (user_default_voice
              { defaultsClean with default_voice_id := "en_us_002" }))
          else p) :=
  migrate_default_voice_amended "en_us_006"
    { defaultsClean with default_voice_id := "en_us_002" }
    [(1, some "en_us_006"), (2, some "en_us_002"), (3, some "en_uk_001")]
    (by decide) (by decide)

/-! ## C3 component: guild settings store (`src/utils/guild_settings_store.py`).
The store keeps a per-guild cache over a per-guild persisted record; the
claims are per-guild, so the state is projected to one guild: the cached
record (if the cache holds the key) and the persisted record (if the
`guild_settings` row exists).  All store operations run under `self._lock`;
each function below is the body executed under it. -/

/-- Re-inject a cleaned record as a validator input (the store passes the
cached/loaded dict — whose values are the cleaned Python values — back
through `validate_settings`). -/
def toInput (c : CleanSettings) : SettingsInput :=
  { max_tts_chars := some (.int c.max_tts_chars)
    fallback_voice := some (.str c.fallback_voice)
    default_voice_id := some (.str c.default_voice_id)
    auto_read_messages := some (.bool c.auto_read_messages)
    leave_when_alone := some (.bool c.leave_when_alone)
    greet_on_join := some (.bool c.greet_on_join)
    farewell_on_leave := some (.bool c.farewell_on_leave)
    restrict_voices := some (.bool c.restrict_voices)
    allowed_voice_ids := some (.list (c.allowed_voice_ids.map .str))
    allowlist_text_channel_ids :=
      some (.list (c.allowlist_text_channel_ids.map .int)) }

/-- One guild's slice of `GuildSettingsStore`: the in-process cache entry and
the persisted row.  (`_defaults` is `validate_settings(DEFAULT_SETTINGS)`,
i.e. `defaultsClean` by `validate_settings_defaults`.) -/
structure GuildSettingsStore where
  cache : Option CleanSettings
  db : Option CleanSettings
deriving DecidableEq, Repr

/-- `GuildSettingsStore._get_locked(guild_id)`: cache hit returns the cached
record; on a miss the persisted record is loaded and re-validated (a
validation failure propagates and caches nothing); a missing row is created
from the defaults (`ensure_guild_settings`) and cached. -/
def GuildSettingsStore.get_locked (st : GuildSettingsStore) :
    Except SettingsValidationError CleanSettings × GuildSettingsStore :=
  match st.cache with
  | some r => (.ok r, st)
  | Option.none =>
      match st.db with
      | some r =>
          match validate_settings (toInput r) with
          | .ok r' => (.ok r', { cache := some r', db := st.db })
          | .error e => (.error e, st)
      | Option.none =>
          (.ok defaultsClean, { cache := some defaultsClean, db := some defaultsClean })

/-- The keys of `DEFAULT_SETTINGS` (`k not in DEFAULT_SETTINGS` is the
unknown-key test in `update`). -/
def defaultSettingsKeys : List String :=
  ["max_tts_chars", "fallback_voice", "default_voice_id", "auto_read_messages",
   "leave_when_alone", "greet_on_join", "farewell_on_leave", "restrict_voices",
   "allowed_voice_ids", "allowlist_text_channel_ids"]

/-- `merged[k] = v` for a known key. -/
def setKey (m : SettingsInput) (k : String) (v : PyVal) : SettingsInput :=
  if k = "max_tts_chars" then { m with max_tts_chars := some v }
  else if k = "fallback_voice" then { m with fallback_voice := some v }
  else if k = "default_voice_id" then { m with default_voice_id := some v }
  else if k = "auto_read_messages" then { m with auto_read_messages := some v }
  else if k = "leave_when_alone" then { m with leave_when_alone := some v }
  else if k = "greet_on_join" then { m with greet_on_join := some v }
  else if k = "farewell_on_leave" then { m with farewell_on_leave := some v }
  else if k = "restrict_voices" then { m with restrict_voices := some v }
  else if k = "allowed_voice_ids" then { m with allowed_voice_ids := some v }
  else { m with allowlist_text_channel_ids := some v }

/-- The `for k, v in patch.items()` loop of `update`: merge known keys in
order, raise `Unknown setting: k` at the first unknown key.  (Python dicts
iterate in insertion order, so the patch is a list of pairs.) -/
def applyPatch (m : SettingsInput) :
    List (String × PyVal) → Except SettingsValidationError SettingsInput
  | [] => .ok m
  | (k, v) :: rest =>
      if defaultSettingsKeys.contains k then applyPatch (setKey m k v) rest
      else .error ⟨"Unknown setting: " ++ k⟩

/-- `GuildSettingsStore.update(guild_id, patch)`: read (or create) the
current record, merge the patch over it, validate, persist
(`upsert_guild_settings`) and cache.  Any raise leaves the state as the
initial read left it. -/
def GuildSettingsStore.update (st : GuildSettingsStore)
    (patch : List (String × PyVal)) :
    Except SettingsValidationError CleanSettings × GuildSettingsStore :=
  match st.get_locked with
  | (.error e, st1) => (.error e, st1)
  | (.ok current, st1) =>
      match applyPatch (toInput current) patch with
      | .error e => (.error e, st1)
      | .ok merged =>
          match validate_settings merged with
          | .error e => (.error e, st1)
          | .ok cleaned => (.ok cleaned, { cache := some cleaned, db := some cleaned })

/-- The first key of the patch that is not in the settings schema. -/
def firstUnknownKey (patch : List (String × PyVal)) : Option String :=
  (patch.find? (fun kv => !(defaultSettingsKeys.contains kv.1))).map (·.1)

lemma applyPatch_unknown (patch : List (String × PyVal)) (k : String) :
    ∀ m, firstUnknownKey patch = some k →
    applyPatch m patch = .error ⟨"Unknown setting: " ++ k⟩ := by
  induction patch with
  | nil => intro m h; simp [firstUnknownKey] at h
  | cons kv rest ih =>
      intro m h
      obtain ⟨k0, v0⟩ := kv
      by_cases hk : defaultSettingsKeys.contains k0
      · have hrest : firstUnknownKey rest = some k := by
          unfold firstUnknownKey at h ⊢
          rwa [List.find?_cons_of_neg _ (by simpa using hk)] at h
        simp only [applyPatch, if_pos hk]
        exact ih _ hrest
      · have hkk : k0 = k := by
          unfold firstUnknownKey at h
          rw [List.find?_cons_of_pos _ (by simpa using hk)] at h
          simpa using h
        subst hkk
        unfold applyPatch
        rw [if_neg hk]

/-- **C10, counterexample.**  The claim says an unknown-key `update` changes
nothing (cache and persisted record identical before and after).  For a
guild seen for the first time, the initial read inside `update` creates and
persists the default record (`ensure_guild_settings`) and caches it before
the unknown key raises: the persisted record goes from absent to the
defaults. -/
theorem settings_update_unknown_counterexample :
    ((GuildSettingsStore.update ⟨Option.none, Option.none⟩ [("bogus", .int 1)]).1
        = .error ⟨"Unknown setting: bogus"⟩) ∧
    ((GuildSettingsStore.update ⟨Option.none, Option.none⟩ [("bogus", .int 1)]).2.db
        = some defaultsClean) ∧
    ((⟨Option.none, Option.none⟩ : GuildSettingsStore).db = Option.none) := by
  refine ⟨rfl, rfl, rfl⟩

/-- **C10, amended.**  An `update` whose patch contains an unknown key (the
first being `k`) raises `Unknown setting: k`, and the settings value is
unchanged: the state after the call is exactly the state the initial read
leaves (for an already-cached guild that is the unchanged state; for a
first access it is the created default record, as any `get` would produce),
and a subsequent read returns the same record the read before the call
returned. -/
theorem settings_update_unknown_amended (st : GuildSettingsStore)
    (patch : List (String × PyVal)) (k : String) (r : CleanSettings)
    (hget : st.get_locked.1 = .ok r)
    (hunknown : firstUnknownKey patch = some k) :
    (st.update patch).1 = .error ⟨"Unknown setting: " ++ k⟩ ∧
    (st.update patch).2 = st.get_locked.2 ∧
    (st.update patch).2.get_locked = (.ok r, st.get_locked.2) := by
  have happly := applyPatch_unknown patch k (toInput r) hunknown
  have hpair : st.get_locked = (.ok r, st.get_locked.2) := by
    rcases hgl : st.get_locked with ⟨res, st1⟩
    rw [hgl] at hget
    have : res = .ok r := hget
    rw [this]
  have hupd : st.update patch = (.error ⟨"Unknown setting: " ++ k⟩, st.get_locked.2) := by
    unfold GuildSettingsStore.update
    rw [hpair]
    simp only
    rw [happly]
  have hidem : (st.get_locked.2).get_locked = (.ok r, st.get_locked.2) := by
    rcases hc : st.cache with _ | c
    · rcases hd : st.db with _ | d
      · have heq : st.get_locked
            = (.ok defaultsClean, ⟨some defaultsClean, some defaultsClean⟩) := by
          unfold GuildSettingsStore.get_locked
          rw [hc, hd]
        rw [heq] at hget ⊢
        simp only [Except.ok.injEq] at hget
        subst hget
        rfl
      · rcases hv : validate_settings (toInput d) with e | r'
        · have heq : st.get_locked = (.error e, st) := by
            unfold GuildSettingsStore.get_locked
            rw [hc, hd]
            dsimp only
            rw [hv]
          rw [heq] at hget
          exact absurd hget (by simp)
        · have heq : st.get_locked = (.ok r', ⟨some r', st.db⟩) := by
            unfold GuildSettingsStore.get_locked
            rw [hc, hd]
            dsimp only
            rw [hv]
          rw [heq] at hget ⊢
          simp only [Except.ok.injEq] at hget
          subst hget
          rfl
    · have heq : st.get_locked = (.ok c, st) := by
        unfold GuildSettingsStore.get_locked
        rw [hc]
      rw [heq] at hget ⊢
      simp only [Except.ok.injEq] at hget
      subst hget
      exact heq
  exact ⟨by rw [hupd], by rw [hupd], by rw [hupd]; exact hidem⟩

/-- Witness for `settings_update_unknown_amended`: an already-cached guild
with the default record; a patch with the unknown key `bogus` raises and
leaves everything as it is. -/
theorem settings_update_unknown_amended_witness :
    (GuildSettingsStore.update ⟨some defaultsClean, some defaultsClean⟩
        [("bogus", .int 1)]).1 = .error ⟨"Unknown setting: bogus"⟩ ∧
    (GuildSettingsStore.update ⟨some defaultsClean, some defaultsClean⟩
        [("bogus", .int 1)]).2
      = (GuildSettingsStore.get_locked ⟨some defaultsClean, some defaultsClean⟩).2 ∧
    (GuildSettingsStore.update ⟨some defaultsClean, some defaultsClean⟩
        [("bogus", .int 1)]).2.get_locked
      = (.ok defaultsClean,
         (GuildSettingsStore.get_locked ⟨some defaultsClean, some defaultsClean⟩).2) :=
  settings_update_unknown_amended ⟨some defaultsClean, some defaultsClean⟩
    [("bogus", .int 1)] "bogus" defaultsClean (by rfl) (by rfl)

/-! ## C2 component: the streaming base64-JSON decoder
(`src/utils/tts_pipeline.py`, `_json_find_string_value_start` and
`_decode_tiktok_json_base64_stream`).  Bytes are `Nat`s; the chunk sequence
is the one `resp.content.iter_chunked(4096)` yields (so each chunk holds at
most 4096 bytes of the response body, at arbitrary boundaries). -/

/-- The errors (`TTSAPIError` messages) the decoder can raise. -/
inductive TtsErr where
  | parseError    -- "TikTok JSON parse error (data field not found)"
  | nullAudio     -- "TikTok returned null audio data"
  | decodeError   -- "Invalid TikTok base64: ..."
  | noAudio       -- the not-`saw_data` end of stream: the error/message field
                  -- of the payload, or "No audio data" (collapsed into one
                  -- constructor; only failure-vs-success is observable here)
  | emptyAudio    -- "TikTok returned empty audio data"
deriving DecidableEq, Repr

/-- Byte-list prefix test (used by the substring search below). -/
def listIsPrefixOf : List Nat → List Nat → Bool
  | [], _ => true
  | _ :: _, [] => false
  | a :: as, b :: bs => a == b && listIsPrefixOf as bs

/-- Python `buf.find(sub)`: index of the first occurrence, `none` for -1. -/
def findSub (key : List Nat) : List Nat → Option Nat
  | [] => if key.isEmpty then some 0 else Option.none
  | b :: t =>
      if listIsPrefixOf key (b :: t) then some 0 else (findSub key t).map (· + 1)

/-- The whitespace set `b" \t\r\n"` skipped by `_json_find_string_value_start`. -/
def isWsByte (c : Nat) : Bool := c = 32 || c = 9 || c = 13 || c = 10

/-- Leading-whitespace count. -/
def wsSkip : List Nat → Nat
  | [] => 0
  | c :: t => if isWsByte c then wsSkip t + 1 else 0

/-- The `while i < n and buf[i] in b" \t\r\n": i += 1` loop: the first
index `≥ i` holding a non-whitespace byte (or the length). -/
def wsEnd (buf : List Nat) (i : Nat) : Nat := i + wsSkip (buf.drop i)

/-- Result of `_json_find_string_value_start`: the source returns
`None` / `-1` / `i + 1`; the sentinel is lifted into a constructor. -/
inductive FindRes where
  | notFound
  | isNull
  | start (i : Nat)
deriving DecidableEq, Repr

/-- `_json_find_string_value_start(buf, key)` from `src/utils/tts_pipeline.py`. -/
def jsonFindStringValueStart (buf key : List Nat) : FindRes :=
  match findSub key buf with
  | Option.none => .notFound
  | some keyIdx =>
      let i0 := keyIdx + key.length
      let n := buf.length
      let i1 := wsEnd buf i0
      if n ≤ i1 then .notFound
      else if buf.getD i1 0 ≠ 58 then .notFound  -- ':'
      else
        let i2 := wsEnd buf (i1 + 1)
        if n ≤ i2 then .notFound
        else if buf.getD i2 0 = 110 ∧ (buf.drop i2).take 4 = [110, 117, 108, 108]
          then .isNull  -- "null"
        else if buf.getD i2 0 ≠ 34 then .notFound  -- not an opening quote
        else .start (i2 + 1)

/-- The standard base64 alphabet, by 6-bit value. -/
def b64Alpha (v : Nat) : Nat :=
  if v < 26 then 65 + v
  else if v < 52 then 97 + (v - 26)
  else if v < 62 then 48 + (v - 52)
  else if v = 62 then 43
  else 47

/-- Partial inverse of the alphabet. -/
def b64Val (c : Nat) : Option Nat :=
  if 65 ≤ c ∧ c ≤ 90 then some (c - 65)
  else if 97 ≤ c ∧ c ≤ 122 then some (c - 97 + 26)
  else if 48 ≤ c ∧ c ≤ 57 then some (c - 48 + 52)
  else if c = 43 then some 62
  else if c = 47 then some 63
  else Option.none

/-- Standard base64 encoding of a byte sequence — what the provider's
`"data"` field holds for an audio payload `M` (`<base64(M)>` in the spec). -/
def b64encode : List Nat → List Nat
  | [] => []
  | [b1] => [b64Alpha (b1 / 4), b64Alpha (b1 % 4 * 16), 61, 61]
  | [b1, b2] => [b64Alpha (b1 / 4), b64Alpha (b1 % 4 * 16 + b2 / 16),
                 b64Alpha (b2 % 16 * 4), 61]
  | b1 :: b2 :: b3 :: rest =>
      b64Alpha (b1 / 4) :: b64Alpha (b1 % 4 * 16 + b2 / 16) ::
      b64Alpha (b2 % 16 * 4 + b3 / 64) :: b64Alpha (b3 % 64) :: b64encode rest

/-- Model of Python `base64.b64decode` on the inputs the decoder feeds it:
sequences of alphabet characters in 4-character quanta with valid trailing
`=` padding.  Inputs on which CPython raises `binascii.Error` (bad padding,
length not a multiple of four after discarding non-alphabet bytes) map to
`none`; the decoder below only ever passes slices of a well-formed base64
payload, on which the two functions agree. -/
def b64decodeGroups : List Nat → Option (List Nat)
  | [] => some []
  | c1 :: c2 :: c3 :: c4 :: rest =>
      match b64Val c1, b64Val c2 with
      | some v1, some v2 =>
          if c3 = 61 then
            if c4 = 61 ∧ rest = [] then some [v1 * 4 + v2 / 16] else Option.none
          else
            match b64Val c3 with
            | some v3 =>
                if c4 = 61 then
                  if rest = [] then some [v1 * 4 + v2 / 16, v2 % 16 * 16 + v3 / 4]
                  else Option.none
                else
                  match b64Val c4 with
                  | some v4 =>
                      (b64decodeGroups rest).map
                        (fun tl => (v1 * 4 + v2 / 16) :: (v2 % 16 * 16 + v3 / 4) ::
                                   (v3 % 4 * 64 + v4) :: tl)
                  | Option.none => Option.none
            | Option.none => Option.none
      | _, _ => Option.none
  | _ => Option.none

/-- The state of `_decode_tiktok_json_base64_stream` between chunks:
buffering the prefix before `"data"` is located; streaming base64
(`b64_buf` leftover and the bytes fed so far — `feed_decoded` only feeds
non-empty pieces, so `fed_any` is `out ≠ []`); done (the closing quote was
seen, the `async for` loop was left by `break`); or failed. -/
inductive DecSt where
  | pre (pbuf : List Nat)
  | dat (b64buf : List Nat) (out : List Nat)
  | done (out : List Nat)
  | fail (e : TtsErr)
deriving DecidableEq, Repr

/-- `consume_b64_bytes(data)` (with `feed_decoded`): look for the closing
quote; decode and flush up to it, or buffer and decode only full 4-character
quanta. -/
def consumeB64 (b64buf out chunk : List Nat) : DecSt :=
  match findSub [34] chunk with
  | some endQuote =>
      match b64decodeGroups (b64buf ++ chunk.take endQuote) with
      | some d => .done (out ++ d)
      | Option.none => .fail .decodeError
  | Option.none =>
      let buf := b64buf ++ chunk
      let decodeLen := buf.length / 4 * 4
      if 4 ≤ decodeLen then
        match b64decodeGroups (buf.take decodeLen) with
        | some d => .dat (buf.drop decodeLen) (out ++ d)
        | Option.none => .fail .decodeError
      else .dat buf out

/-- `b"\"data\""`. -/
def dataKey : List Nat := [34, 100, 97, 116, 97, 34]

/-- The 64 KiB prefix buffer limit of the decoder. -/
def prefixLimit : Nat := 64 * 1024

/-- One iteration of the `async for chunk in resp.content.iter_chunked(4096)`
loop of `_decode_tiktok_json_base64_stream`. -/
def decStep (st : DecSt) (chunk : List Nat) : DecSt :=
  match st with
  | .fail e => .fail e
  | .done out => .done out
  | .dat b64buf out => consumeB64 b64buf out chunk
  | .pre pbuf =>
      let pbuf := pbuf ++ chunk
      if prefixLimit < pbuf.length then .fail .parseError
      else
        match jsonFindStringValueStart pbuf dataKey with
        | .notFound => .pre pbuf
        | .isNull => .fail .nullAudio
        | .start i => consumeB64 [] [] (pbuf.drop i)

/-- The post-loop epilogue of `_decode_tiktok_json_base64_stream`: a stream
that ended before `"data"` was found fails (provider error message or
"No audio data"); a residual `b64_buf` is flushed; and an empty feed fails
with "empty audio data".  On success the task returns and the producer
wrapper closes the stream — EOF for the reader. -/
def decFinish : DecSt → Except TtsErr (List Nat)
  | .fail e => .error e
  | .pre _ => .error .noAudio
  | .done out => if out = [] then .error .emptyAudio else .ok out
  | .dat b64buf out =>
      match b64decodeGroups b64buf with
      | some d => if out ++ d = [] then .error .emptyAudio else .ok (out ++ d)
      | Option.none => .error .decodeError

/-- `_decode_tiktok_json_base64_stream`, as a function of the chunk list:
the bytes fed to the output stream (in order, as one list) or the raised
error. -/
def decodeTiktokStream (chunks : List (List Nat)) : Except TtsErr (List Nat) :=
  decFinish (chunks.foldl decStep (.pre []))

/-- `b"{\"data\":\""` — the 9-byte head of a well-formed response. -/
def dataHeader : List Nat := [123, 34, 100, 97, 116, 97, 34, 58, 34]

/-- The valid primary-provider response `{"data":"<base64(M)>"}`. -/
def tiktokResponse (M : List Nat) : List Nat :=
  dataHeader ++ (b64encode M ++ [34, 125])

/-- The null response `{"data":null}`. -/
def tiktokNullResponse : List Nat :=
  [123, 34, 100, 97, 116, 97, 34, 58, 110, 117, 108, 108, 125]

/-! ### Base64 groundwork for the streaming-decode proof -/

lemma b64Val_b64Alpha (v : Nat) (h : v < 64) : b64Val (b64Alpha v) = some v := by
  have key : ∀ w : Fin 64, b64Val (b64Alpha w) = some w := by decide
  exact key ⟨v, h⟩

lemma b64Alpha_ne_61 (v : Nat) : b64Alpha v ≠ 61 := by
  simp only [b64Alpha]
  split_ifs <;> omega

lemma b64Alpha_ne_34 (v : Nat) : b64Alpha v ≠ 34 := by
  simp only [b64Alpha]
  split_ifs <;> omega

lemma quote_not_mem_b64encode (M : List Nat) : 34 ∉ b64encode M := by
  have hA : ∀ v, ¬ (34 = b64Alpha v) := fun v h => b64Alpha_ne_34 v h.symm
  induction M using b64encode.induct with
  | case1 => simp [b64encode]
  | case2 b1 => simp [b64encode, hA]
  | case3 b1 b2 => simp [b64encode, hA]
  | case4 b1 b2 b3 rest ih => simp [b64encode, hA, ih]

lemma b64encode_length (M : List Nat) :
    (b64encode M).length = 4 * ((M.length + 2) / 3) := by
  induction M using b64encode.induct with
  | case1 => rfl
  | case2 b1 => simp [b64encode]
  | case3 b1 b2 => simp [b64encode]
  | case4 b1 b2 b3 rest ih =>
      simp only [b64encode, List.length_cons, ih]
      omega

lemma b64encode_drop4 (M : List Nat) :
    (b64encode M).drop 4 = b64encode (M.drop 3) := by
  rcases M with _ | ⟨b1, _ | ⟨b2, _ | ⟨b3, rest⟩⟩⟩ <;> rfl

lemma b64encode_drop (k : Nat) (M : List Nat) :
    (b64encode M).drop (4 * k) = b64encode (M.drop (3 * k)) := by
  induction k generalizing M with
  | zero => simp
  | succ k ih =>
      have e1 : 4 * (k + 1) = 4 * k + 4 := by omega
      have e2 : 3 * (k + 1) = 3 * k + 3 := by omega
      rw [e1, e2]
      rw [← List.drop_drop, ← List.drop_drop, ih, b64encode_drop4]

lemma b64decode_b64encode (M : List Nat) (hM : ∀ b ∈ M, b < 256) :
    b64decodeGroups (b64encode M) = some M := by
  induction M using b64encode.induct with
  | case1 => rfl
  | case2 b1 =>
      have h1 : b1 < 256 := hM b1 (by simp)
      have e1 := b64Val_b64Alpha (b1 / 4) (by omega)
      have e2 := b64Val_b64Alpha (b1 % 4 * 16) (by omega)
      simp only [b64encode, b64decodeGroups, e1, e2]
      simp
      omega
  | case3 b1 b2 =>
      have h1 : b1 < 256 := hM b1 (by simp)
      have h2 : b2 < 256 := hM b2 (by simp)
      have e1 := b64Val_b64Alpha (b1 / 4) (by omega)
      have e2 := b64Val_b64Alpha (b1 % 4 * 16 + b2 / 16) (by omega)
      have e3 := b64Val_b64Alpha (b2 % 16 * 4) (by omega)
      simp only [b64encode, b64decodeGroups, e1, e2,
        if_neg (b64Alpha_ne_61 (b2 % 16 * 4)), e3]
      simp
      constructor <;> omega
  | case4 b1 b2 b3 rest ih =>
      have h1 : b1 < 256 := hM b1 (by simp)
      have h2 : b2 < 256 := hM b2 (by simp)
      have h3 : b3 < 256 := hM b3 (by simp)
      have hrest : ∀ b ∈ rest, b < 256 := fun b hb => hM b (by simp [hb])
      have e1 := b64Val_b64Alpha (b1 / 4) (by omega)
      have e2 := b64Val_b64Alpha (b1 % 4 * 16 + b2 / 16) (by omega)
      have e3 := b64Val_b64Alpha (b2 % 16 * 4 + b3 / 64) (by omega)
      have e4 := b64Val_b64Alpha (b3 % 64) (by omega)
      simp only [b64encode, b64decodeGroups, e1, e2,
        if_neg (b64Alpha_ne_61 (b2 % 16 * 4 + b3 / 64)), e3,
        if_neg (b64Alpha_ne_61 (b3 % 64)), e4, ih hrest, Option.map_some]
      simp
      refine ⟨by omega, by omega, by omega⟩

lemma b64encode_take4 (M : List Nat) (h : 3 ≤ M.length) :
    (b64encode M).take 4 = b64encode (M.take 3) := by
  rcases M with _ | ⟨b1, _ | ⟨b2, _ | ⟨b3, rest⟩⟩⟩
  · simp at h
  · simp at h
  · simp at h
  · rfl

lemma b64encode_take3_append (M : List Nat) (h : 3 ≤ M.length) :
    b64encode (M.take 3) ++ b64encode (M.drop 3) = b64encode M := by
  rcases M with _ | ⟨b1, _ | ⟨b2, _ | ⟨b3, rest⟩⟩⟩
  · simp at h
  · simp at h
  · simp at h
  · rfl

lemma b64encode_take (k : Nat) (M : List Nat) (h : 3 * k ≤ M.length) :
    (b64encode M).take (4 * k) = b64encode (M.take (3 * k)) := by
  induction k generalizing M with
  | zero => simp [b64encode]
  | succ k ih =>
      have h3 : 3 ≤ M.length := by omega
      have e1 : 4 * (k + 1) = 4 + 4 * k := by omega
      have e2 : 3 * (k + 1) = 3 + 3 * k := by omega
      rw [e1, e2]
      rw [List.take_add, b64encode_take4 _ h3, b64encode_drop4,
        ih (M.drop 3) (show 3 * k ≤ (M.drop 3).length by
          rw [List.length_drop]; omega)]
      rw [← b64encode_take3_append (M.take (3 + 3 * k)) (show
          3 ≤ (M.take (3 + 3 * k)).length by rw [List.length_take]; omega)]
      have hA : (M.take (3 + 3 * k)).take 3 = M.take 3 := by
        rw [List.take_take]
        congr 1
        omega
      have hB : (M.take (3 + 3 * k)).drop 3 = (M.drop 3).take (3 * k) := by
        have h33 : 3 + 3 * k - 3 = 3 * k := by omega
        rw [List.drop_take, h33]
      rw [hA, hB]

lemma b64decode_encode_drop (q : Nat) (M : List Nat) (hM : ∀ b ∈ M, b < 256) :
    b64decodeGroups ((b64encode M).drop (4 * q)) = some (M.drop (3 * q)) := by
  rw [b64encode_drop]
  exact b64decode_b64encode _ (fun b hb => hM b (List.mem_of_mem_drop hb))

lemma b64decode_encode_mid (q d : Nat) (M : List Nat) (hM : ∀ b ∈ M, b < 256)
    (h : 4 * q + 4 * d ≤ (b64encode M).length) :
    b64decodeGroups (((b64encode M).drop (4 * q)).take (4 * d))
      = some ((M.drop (3 * q)).take (3 * d)) := by
  rw [b64encode_drop]
  have hM' : ∀ b ∈ M.drop (3 * q), b < 256 :=
    fun b hb => hM b (List.mem_of_mem_drop hb)
  have hlen : 4 * d ≤ (b64encode (M.drop (3 * q))).length := by
    have hc := congrArg List.length (b64encode_drop q M)
    rw [List.length_drop] at hc
    omega
  by_cases hfull : (b64encode (M.drop (3 * q))).length ≤ 4 * d
  · rw [List.take_of_length_le hfull, b64decode_b64encode _ hM']
    have hd : (M.drop (3 * q)).length ≤ 3 * d := by
      have hl := b64encode_length (M.drop (3 * q))
      omega
    rw [List.take_of_length_le hd]
  · push_neg at hfull
    have hd : 3 * d ≤ (M.drop (3 * q)).length := by
      have hl := b64encode_length (M.drop (3 * q))
      omega
    rw [b64encode_take d _ hd,
      b64decode_b64encode _ (fun b hb => hM' b (List.mem_of_mem_take hb))]

lemma findSub_quote_none (l : List Nat) (h : 34 ∉ l) :
    findSub [34] l = Option.none := by
  induction l with
  | nil => rfl
  | cons b t ih =>
      have hb : b ≠ 34 := fun hb => h (by simp [hb])
      have hpre : ¬ (listIsPrefixOf [34] (b :: t) = true) := by
        simp [listIsPrefixOf]
        exact fun hh => hb hh.symm
      simp [findSub, hpre, ih (fun hm => h (by simp [hm]))]

lemma findSub_quote_append (u w : List Nat) (h : 34 ∉ u) :
    findSub [34] (u ++ 34 :: w) = some u.length := by
  induction u with
  | nil => rfl
  | cons b t ih =>
      have hb : b ≠ 34 := fun hb => h (by simp [hb])
      have hpre : ¬ (listIsPrefixOf [34] (b :: (t ++ 34 :: w)) = true) := by
        simp [listIsPrefixOf]
        exact fun hh => hb hh.symm
      simp [findSub, hpre, ih (fun hm => h (by simp [hm]))]

lemma jsonFind_header_take (m : Nat) (hm : m ≤ 8) (tail : List Nat) :
    jsonFindStringValueStart ((dataHeader ++ tail).take m) dataKey = .notFound := by
  have heq : (dataHeader ++ tail).take m = dataHeader.take m :=
    List.take_append_of_le_length (by simp [dataHeader]; omega)
  rw [heq]
  interval_cases m <;> decide

lemma jsonFind_header_start (tail : List Nat) :
    jsonFindStringValueStart (dataHeader ++ tail) dataKey = .start 9 := by
  rfl

/-- Consuming a chunk that lies entirely inside the base64 payload, having
already consumed `j` payload bytes: the state advances to `j + t` consumed
bytes, with `b64_buf` holding the sub-quantum leftover and the output being
the decoded prefix. -/
lemma consumeB64_inside (M : List Nat) (hM : ∀ b ∈ M, b < 256) (j t : Nat)
    (hjt : j + t ≤ (b64encode M).length) :
    consumeB64 (((b64encode M).drop (4 * (j / 4))).take (j - 4 * (j / 4)))
        (M.take (3 * (j / 4)))
        (((b64encode M).drop j).take t)
      = .dat
          (((b64encode M).drop (4 * ((j + t) / 4))).take ((j + t) - 4 * ((j + t) / 4)))
          (M.take (3 * ((j + t) / 4))) := by
  set s := b64encode M with hs
  have hq4 : 4 * (j / 4) ≤ j := by omega
  have hqf : findSub [34] ((s.drop j).take t) = Option.none := by
    apply findSub_quote_none
    intro hmem
    exact quote_not_mem_b64encode M
      (List.mem_of_mem_drop (List.mem_of_mem_take hmem))
  unfold consumeB64
  rw [hqf]
  dsimp only
  have hbuf : (s.drop (4 * (j / 4))).take (j - 4 * (j / 4)) ++ (s.drop j).take t
      = (s.drop (4 * (j / 4))).take (j - 4 * (j / 4) + t) := by
    rw [List.take_add]
    congr 2
    rw [List.drop_drop]
    congr 1
    omega
  rw [hbuf]
  have hlenbuf : ((s.drop (4 * (j / 4))).take (j - 4 * (j / 4) + t)).length
      = j + t - 4 * (j / 4) := by
    rw [List.length_take, List.length_drop]
    omega
  rw [hlenbuf]
  by_cases hsame : (j + t) / 4 = j / 4
  · rw [if_neg (by omega)]
    have hidx : j - 4 * (j / 4) + t = j + t - 4 * (j / 4) := by omega
    rw [hidx, hsame]
  · have hqlt : j / 4 < (j + t) / 4 := by omega
    rw [if_pos (by omega)]
    have htk : ((s.drop (4 * (j / 4))).take (j - 4 * (j / 4) + t)).take
          ((j + t - 4 * (j / 4)) / 4 * 4)
        = (s.drop (4 * (j / 4))).take (4 * ((j + t) / 4 - j / 4)) := by
      rw [List.take_take]
      congr 1
      omega
    rw [htk,
      b64decode_encode_mid (j / 4) ((j + t) / 4 - j / 4) M hM
        (by rw [← hs]; omega)]
    dsimp only
    have hout : M.take (3 * (j / 4)) ++
          (M.drop (3 * (j / 4))).take (3 * ((j + t) / 4 - j / 4))
        = M.take (3 * ((j + t) / 4)) := by
      rw [← List.take_add]
      congr 1
      omega
    have hdrop : ((s.drop (4 * (j / 4))).take (j - 4 * (j / 4) + t)).drop
          ((j + t - 4 * (j / 4)) / 4 * 4)
        = (s.drop (4 * ((j + t) / 4))).take ((j + t) - 4 * ((j + t) / 4)) := by
      rw [List.drop_take, List.drop_drop]
      congr 1
      · omega
      · congr 1
        omega
    rw [hout, hdrop]

/-- Consuming the chunk that carries the closing quote: the remaining
payload plus leftover decode to the tail of `M`, and the state is `done`
with the full message fed. -/
lemma consumeB64_final (M : List Nat) (hM : ∀ b ∈ M, b < 256) (j t : Nat)
    (hj : j ≤ (b64encode M).length) (ht : (b64encode M).length < j + t)
    (htt : j + t ≤ (b64encode M).length + 2) :
    consumeB64 (((b64encode M).drop (4 * (j / 4))).take (j - 4 * (j / 4)))
        (M.take (3 * (j / 4)))
        (((b64encode M ++ [34, 125]).drop j).take t)
      = .done M := by
  set s := b64encode M with hs
  have hq4 : 4 * (j / 4) ≤ j := by omega
  obtain ⟨w, hp⟩ : ∃ w, ((s ++ [34, 125]).drop j).take t = s.drop j ++ 34 :: w := by
    refine ⟨[125].take (t - (s.length - j) - 1), ?_⟩
    rw [List.drop_append_eq_append_drop]
    have h34 : ([34, 125] : List Nat).drop (j - s.length) = [34, 125] := by
      have hz : j - s.length = 0 := by omega
      rw [hz]
      rfl
    rw [h34, List.take_append_eq_append_take,
        List.take_of_length_le (by rw [List.length_drop]; omega)]
    congr 1
    rw [List.length_drop]
    have hk : t - (s.length - j) = (t - (s.length - j) - 1) + 1 := by omega
    rw [hk]
    rfl
  rw [hp]
  have hqfree : 34 ∉ s.drop j :=
    fun hmem => quote_not_mem_b64encode M (List.mem_of_mem_drop hmem)
  unfold consumeB64
  rw [findSub_quote_append _ _ hqfree]
  dsimp only
  have htl : (s.drop j ++ 34 :: w).take (s.drop j).length = s.drop j :=
    List.take_left _ _
  rw [htl]
  have hbuf2 : (s.drop (4 * (j / 4))).take (j - 4 * (j / 4)) ++ s.drop j
      = s.drop (4 * (j / 4)) := by
    conv_rhs => rw [← List.take_append_drop (j - 4 * (j / 4)) (s.drop (4 * (j / 4)))]
    congr 1
    rw [List.drop_drop]
    congr 1
    omega
  rw [hbuf2, b64decode_encode_drop (j / 4) M hM]
  dsimp only
  rw [List.take_append_drop]

/-- The decoder invariant for a well-formed response, after `m` response
bytes have been consumed: still buffering the (short) prefix; streaming the
payload with the leftover/output slices determined by the number of consumed
payload bytes `m - 9`; or done with all of `M` fed. -/
def goodSt (M : List Nat) (m : Nat) (st : DecSt) : Prop :=
  (m ≤ 8 ∧ st = .pre ((tiktokResponse M).take m)) ∨
  (9 ≤ m ∧ m ≤ 9 + (b64encode M).length ∧
    st = .dat (((b64encode M).drop (4 * ((m - 9) / 4))).take
                 ((m - 9) - 4 * ((m - 9) / 4)))
              (M.take (3 * ((m - 9) / 4)))) ∨
  (9 + (b64encode M).length < m ∧ st = .done M)

lemma tiktokResponse_length (M : List Nat) :
    (tiktokResponse M).length = (b64encode M).length + 11 := by
  simp [tiktokResponse, dataHeader]

lemma decStep_good (M : List Nat) (hM : ∀ b ∈ M, b < 256) (m : Nat) (st : DecSt)
    (c : List Nat) (hc : c.length ≤ 4096)
    (hcm : m + c.length ≤ (tiktokResponse M).length)
    (hcc : c = ((tiktokResponse M).drop m).take c.length)
    (hg : goodSt M m st) : goodSt M (m + c.length) (decStep st c) := by
  have hRlen := tiktokResponse_length M
  rcases hg with ⟨hm8, hst⟩ | ⟨hm9, hms, hst⟩ | ⟨hmd, hst⟩
  · -- prefix phase
    subst hst
    unfold decStep
    dsimp only
    have hpb : (tiktokResponse M).take m ++ c
        = (tiktokResponse M).take (m + c.length) := by
      conv_lhs => rw [hcc]
      exact (List.take_add _ _ _).symm
    rw [hpb]
    rw [if_neg (by
      rw [List.length_take]
      unfold prefixLimit
      omega)]
    by_cases hsm : m + c.length ≤ 8
    · rw [show tiktokResponse M = dataHeader ++ (b64encode M ++ [34, 125]) from rfl,
        jsonFind_header_take (m + c.length) hsm (b64encode M ++ [34, 125])]
      left
      exact ⟨hsm, rfl⟩
    · push_neg at hsm
      have hT : (tiktokResponse M).take (m + c.length)
          = dataHeader ++ (b64encode M ++ [34, 125]).take (m + c.length - 9) := by
        rw [show tiktokResponse M = dataHeader ++ (b64encode M ++ [34, 125]) from rfl,
          List.take_append_eq_append_take]
        congr 1
        exact List.take_of_length_le (by simp [dataHeader]; omega)
      rw [hT, jsonFind_header_start]
      dsimp only
      have hdrop9 : (dataHeader ++
            (b64encode M ++ [34, 125]).take (m + c.length - 9)).drop 9
          = (b64encode M ++ [34, 125]).take (m + c.length - 9) := by
        rw [show (9 : Nat) = dataHeader.length from rfl, List.drop_left]
      rw [hdrop9]
      by_cases hin : m + c.length - 9 ≤ (b64encode M).length
      · have hpp : (b64encode M ++ [34, 125]).take (m + c.length - 9)
            = (b64encode M).take (m + c.length - 9) :=
          List.take_append_of_le_length hin
        rw [hpp]
        have hstep := consumeB64_inside M hM 0 (m + c.length - 9) (by omega)
        norm_num at hstep
        rw [hstep]
        right; left
        exact ⟨by omega, by omega, rfl⟩
      · push_neg at hin
        have hstep := consumeB64_final M hM 0 (m + c.length - 9)
          (by omega) (by omega) (by omega)
        norm_num at hstep
        rw [hstep]
        right; right
        exact ⟨by omega, rfl⟩
  · -- payload phase
    subst hst
    unfold decStep
    dsimp only
    have hdropm : (tiktokResponse M).drop m
        = (b64encode M ++ [34, 125]).drop (m - 9) := by
      rw [show tiktokResponse M = dataHeader ++ (b64encode M ++ [34, 125]) from rfl,
        List.drop_append_eq_append_drop]
      have h1 : dataHeader.drop m = [] := by
        apply List.drop_eq_nil_iff.mpr
        simp [dataHeader]
        omega
      rw [h1, show dataHeader.length = 9 from rfl]
      simp
    by_cases hin : m + c.length ≤ 9 + (b64encode M).length
    · have hcp : c = ((b64encode M).drop (m - 9)).take c.length := by
        conv_lhs => rw [hcc]
        rw [hdropm, List.drop_append_eq_append_drop,
          show ([34, 125] : List Nat).drop (m - 9 - (b64encode M).length)
            = [34, 125] from by
              rw [show m - 9 - (b64encode M).length = 0 from by omega]
              rfl]
        exact List.take_append_of_le_length (by rw [List.length_drop]; omega)
      have hstep := consumeB64_inside M hM (m - 9) c.length (by omega)
      rw [← hcp] at hstep
      rw [show m - 9 + c.length = m + c.length - 9 from by omega] at hstep
      rw [hstep]
      right; left
      exact ⟨by omega, by omega, rfl⟩
    · push_neg at hin
      have hcp : c = ((b64encode M ++ [34, 125]).drop (m - 9)).take c.length := by
        conv_lhs => rw [hcc]
        rw [hdropm]
      have hstep := consumeB64_final M hM (m - 9) c.length
        (by omega) (by omega) (by omega)
      rw [← hcp] at hstep
      rw [hstep]
      right; right
      exact ⟨by omega, rfl⟩
  · subst hst
    unfold decStep
    right; right
    exact ⟨by omega, rfl⟩

lemma foldl_decStep_done (M : List Nat) (hM : ∀ b ∈ M, b < 256) :
    ∀ (chunks : List (List Nat)) (m : Nat) (st : DecSt),
      m ≤ (tiktokResponse M).length →
      goodSt M m st → (∀ c ∈ chunks, c.length ≤ 4096) →
      chunks.join = (tiktokResponse M).drop m →
      chunks.foldl decStep st = .done M := by
  intro chunks
  induction chunks with
  | nil =>
      intro m st hmR hg _ hjoin
      have hRlen := tiktokResponse_length M
      have hlen : (tiktokResponse M).length ≤ m := by
        have hj := congrArg List.length hjoin
        rw [List.length_drop] at hj
        simp at hj
        omega
      rcases hg with ⟨h1, _⟩ | ⟨_, h2, _⟩ | ⟨_, hst⟩
      · omega
      · omega
      · simpa using hst
  | cons c cs ih =>
      intro m st hmR hg hbnd hjoin
      have hjc : c ++ cs.join = (tiktokResponse M).drop m := by
        simpa using hjoin
      have hcc : c = ((tiktokResponse M).drop m).take c.length := by
        rw [← hjc]
        exact (List.take_left c cs.join).symm
      have hrest : cs.join = (tiktokResponse M).drop (m + c.length) := by
        have h1 : (c ++ cs.join).drop c.length = cs.join := List.drop_left _ _
        rw [← h1, hjc, List.drop_drop]
      have hcm : m + c.length ≤ (tiktokResponse M).length := by
        have hj := congrArg List.length hjc
        rw [List.length_drop, List.length_append] at hj
        omega
      simp only [List.foldl_cons]
      exact ih (m + c.length) _ hcm
        (decStep_good M hM m st c (hbnd c (by simp)) hcm hcc hg)
        (fun x hx => hbnd x (by simp [hx])) hrest

/-- The decoder invariant for the `{"data":null}` response. -/
def goodNull (m : Nat) (st : DecSt) : Prop :=
  (m ≤ 11 ∧ st = .pre (tiktokNullResponse.take m)) ∨
  (12 ≤ m ∧ st = .fail .nullAudio)

lemma jsonFind_null_take (m : Nat) (hm : m ≤ 13) :
    jsonFindStringValueStart (tiktokNullResponse.take m) dataKey
      = (if m ≤ 11 then .notFound else .isNull) := by
  interval_cases m <;> decide

lemma decStepNull_good (m : Nat) (st : DecSt) (c : List Nat)
    (hcm : m + c.length ≤ 13)
    (hcc : c = (tiktokNullResponse.drop m).take c.length)
    (hg : goodNull m st) : goodNull (m + c.length) (decStep st c) := by
  rcases hg with ⟨hm, hst⟩ | ⟨hm, hst⟩
  · subst hst
    unfold decStep
    dsimp only
    have hpb : tiktokNullResponse.take m ++ c
        = tiktokNullResponse.take (m + c.length) := by
      conv_lhs => rw [hcc]
      exact (List.take_add _ _ _).symm
    rw [hpb]
    rw [if_neg (by
      rw [List.length_take]
      unfold prefixLimit
      omega)]
    rw [jsonFind_null_take (m + c.length) (by omega)]
    by_cases h11 : m + c.length ≤ 11
    · rw [if_pos h11]
      left
      exact ⟨h11, rfl⟩
    · rw [if_neg h11]
      right
      exact ⟨by omega, rfl⟩
  · subst hst
    right
    exact ⟨by omega, rfl⟩

lemma foldl_decStepNull_fail :
    ∀ (chunks : List (List Nat)) (m : Nat) (st : DecSt),
      m ≤ 13 →
      goodNull m st →
      chunks.join = tiktokNullResponse.drop m →
      chunks.foldl decStep st = .fail .nullAudio := by
  intro chunks
  induction chunks with
  | nil =>
      intro m st hmR hg hjoin
      have hlen : (13 : Nat) ≤ m := by
        have hj := congrArg List.length hjoin
        rw [List.length_drop] at hj
        simp [tiktokNullResponse] at hj
        omega
      rcases hg with ⟨h1, _⟩ | ⟨_, hst⟩
      · omega
      · simpa using hst
  | cons c cs ih =>
      intro m st hmR hg hjoin
      have hjc : c ++ cs.join = tiktokNullResponse.drop m := by
        simpa using hjoin
      have hcc : c = (tiktokNullResponse.drop m).take c.length := by
        rw [← hjc]
        exact (List.take_left c cs.join).symm
      have hrest : cs.join = tiktokNullResponse.drop (m + c.length) := by
        have h1 : (c ++ cs.join).drop c.length = cs.join := List.drop_left _ _
        rw [← h1, hjc, List.drop_drop]
      have hcm : m + c.length ≤ 13 := by
        have hj := congrArg List.length hjc
        rw [List.length_drop, List.length_append] at hj
        simp [tiktokNullResponse] at hj
        omega
      simp only [List.foldl_cons]
      exact ih (m + c.length) _ hcm (decStepNull_good m st c hcm hcc hg) hrest

/-- **C1, counterexample.**  The claim says the decoder yields exactly `M`
and EOF for *every* message `M`.  For the empty message the response is
`{"data":""}`; the decoder's final `fed_any` check raises "TikTok returned
empty audio data" instead of producing an empty stream. -/
theorem decode_stream_counterexample :
    decodeTiktokStream [tiktokResponse []] = .error .emptyAudio ∧
    tiktokResponse [] = [123, 34, 100, 97, 116, 97, 34, 58, 34, 34, 125] ∧
    decodeTiktokStream [tiktokResponse []] ≠ .ok [] := by
  refine ⟨rfl, rfl, ?_⟩
  intro h
  rw [show decodeTiktokStream [tiktokResponse []] = .error .emptyAudio from rfl] at h
  exact Except.noConfusion h

/-- **C1, amended.**  For every non-empty message `M` (of bytes) and every
splitting of the response `{"data":"<base64(M)>"}` into chunks of at most
4096 bytes — which is every splitting the decoder can observe, since it
reads the body through `iter_chunked(4096)` — feeding the chunks to the
streaming decoder produces exactly `M` on the output stream and the
producer task completes (EOF for the reader).  For every splitting of
`{"data":null}` the decoder fails with the `NullAudio` error.  (Two
restrictions against the original claim: the empty message is rejected by
the `fed_any` check, and a single chunk longer than 64 KiB that overruns
the prefix buffer before `"data"` is located would raise `ParseError`,
which the 4096-byte chunking rules out.) -/
theorem decode_stream_amended :
    (∀ (M : List Nat) (chunks : List (List Nat)),
        (∀ b ∈ M, b < 256) → M ≠ [] →
        (∀ c ∈ chunks, c.length ≤ 4096) →
        chunks.join = tiktokResponse M →
        decodeTiktokStream chunks = .ok M) ∧
    (∀ chunks : List (List Nat),
        chunks.join = tiktokNullResponse →
        decodeTiktokStream chunks = .error .nullAudio) := by
  constructor
  · intro M chunks hM hMne hbnd hjoin
    unfold decodeTiktokStream
    rw [foldl_decStep_done M hM chunks 0 (.pre []) (by omega)
      (by left; exact ⟨by omega, rfl⟩) hbnd (by simpa using hjoin)]
    dsimp only [decFinish]
    rw [if_neg hMne]
  · intro chunks hjoin
    unfold decodeTiktokStream
    rw [foldl_decStepNull_fail chunks 0 (.pre []) (by omega)
      (by left; exact ⟨by omega, rfl⟩) (by simpa using hjoin)]
    rfl

/-- Witness for `decode_stream_amended`: the S4-style split of
`{"data":"SGVsbG8="}` decodes to `Hello` (`[72, 101, 108, 108, 111]`). -/
theorem decode_stream_amended_witness :
    decodeTiktokStream
        [[123, 34], [100, 97, 116, 97], [34, 58, 34, 83, 71],
         [86, 115, 98, 71, 56, 61, 34, 125]]
      = .ok [72, 101, 108, 108, 111] :=
  decode_stream_amended.1 [72, 101, 108, 108, 111]
    [[123, 34], [100, 97, 116, 97], [34, 58, 34, 83, 71],
     [86, 115, 98, 71, 56, 61, 34, 125]]
    (by decide) (by decide) (by decide) (by decide)

end TtsBot
